import Mathlib

/-!
Shallow embedding of the Zebec payment-streaming NEAR contract
(src/contract/src/lib.rs, src/contract/src/utils.rs).

Modelling conventions:
* `Nat` is `Nat` (account identity only matters up to equality).
* `u64` / `u128` values are `Nat`.  The contract is built with overflow
  checks, so a subtraction that would underflow aborts the call; this is
  modelled by `sub?`, which returns an error exactly when the subtrahend
  exceeds the minuend.  Additions and multiplications are taken exact.
* every `require!` / `assert` / `unwrap` of the source is an `Except.error`;
  a NEAR panic rolls the whole call back, so an `Except.error` result
  carries no state change, matching the chain semantics.
* `env::predecessor_account_id()`, `env::block_timestamp_ms() / 1000` and
  `env::attached_deposit()` are passed as explicit parameters
  (`caller`, `now`, `deposit`).
* a lifecycle call that initiates an external transfer returns the pending
  transfer data (recipient, amount, and the values the source passes to the
  resolve callback); the callback itself is a separate function taking the
  promise result as a boolean, exactly as `internal_resolve_*` do.
-/

namespace Zebec

/- Account identifiers are abstracted to `Nat` (identity only matters up to
equality); timestamps are seconds (`env::block_timestamp_ms() / 1000`), a
`u64`, also `Nat`. -/

/-- Stream record, from `struct Stream` in src/contract/src/lib.rs lines 46-67. -/
structure Stream where
  id : Nat
  sender : Nat
  receiver : Nat
  balance : Nat
  rate : Nat
  created : Nat
  start_time : Nat
  end_time : Nat
  withdraw_time : Nat
  is_paused : Bool
  is_cancelled : Bool
  paused_time : Nat
  contract_id : Nat
  can_update : Bool
  can_cancel : Bool
  is_native : Bool
  locked : Bool
  paused_amount : Nat
  total_amount : Nat
  withdrawn_amount : Nat
  deriving Repr, DecidableEq

/-- Contract state relevant to the stream lifecycle, from `struct Contract`
in src/contract/src/lib.rs lines 28-41 (the storage-rent bookkeeping,
owner/manager and whitelist fields are out of the modelled core). -/
structure Contract where
  current_id : Nat
  streams : List (Nat × Stream)
  fee_rate : Nat
  native_fees : Nat
  accumulated_fees : List (Nat × Nat)
  deriving Repr, DecidableEq

/-- Lookup in a `near_sdk` map (`UnorderedMap::get`). -/
def mapGet {α : Type} : List (Nat × α) → Nat → Option α
  | [], _ => none
  | (k, v) :: rest, k' => if k = k' then some v else mapGet rest k'

/-- Insert-or-replace in a `near_sdk` map (`UnorderedMap::insert`). -/
def mapInsert {α : Type} : List (Nat × α) → Nat → α → List (Nat × α)
  | [], k, v => [(k, v)]
  | (k', v') :: rest, k, v =>
      if k' = k then (k, v) :: rest else (k', v') :: mapInsert rest k v

/-- Model of `require!(cond, msg)`: a NEAR panic aborts the whole call. -/
def require (p : Prop) [Decidable p] (msg : String) : Except String Unit :=
  if p then .ok () else .error msg

/-- Checked machine subtraction: NEAR contracts abort on `u64`/`u128` underflow. -/
def sub? (a b : Nat) : Except String Nat :=
  if b ≤ a then .ok (a - b) else .error "attempt to subtract with overflow"

/-- Model of `self.streams.get(&id).unwrap()`. -/
def getStream (c : Contract) (stream_id : Nat) : Except String Stream :=
  match mapGet c.streams stream_id with
  | some s => .ok s
  | none => .error "stream not found"

/-- Constant `MAX_RATE` from src/contract/src/constants.rs line 8. -/
def MAX_RATE : Nat := 100000000000000000000000000

/-- Constant `FEE_BPS_DIVISOR` from src/contract/src/constants.rs line 10. -/
def FEE_BPS_DIVISOR : Nat := 10000

/-- Constant `NATIVE_NEAR_CONTRACT_ID` ("test.near"), as an abstract account. -/
def NATIVE_NEAR_CONTRACT_ID : Nat := 0

/-- Fee computation, from `calculate_fee_amount` in src/contract/src/utils.rs
lines 325-327: `(amount * fee_rate) / FEE_BPS_DIVISOR`. -/
def calculate_fee_amount (c : Contract) (amount : Nat) : Nat :=
  (amount * c.fee_rate) / FEE_BPS_DIVISOR

/-- Fee-ledger credit, the `fee_amount > 0` body shared by the receiver path of
`withdraw` (lib.rs lines 500-511) and `cancel` (lib.rs lines 739-750): native
fees go to `native_fees`, token fees to `accumulated_fees[contract_id]`
(`unwrap_or(0) + fee`). -/
def creditFee (c : Contract) (s : Stream) (fee_amount : Nat) : Contract :=
  if s.is_native then
    { c with native_fees := c.native_fees + fee_amount }
  else
    let total_fee := ((mapGet c.accumulated_fees s.contract_id).getD 0) + fee_amount
    { c with accumulated_fees := mapInsert c.accumulated_fees s.contract_id total_fee }

/-- Fee-ledger debit, the failure body shared by `internal_resolve_withdraw_stream`
(lib.rs lines 300-310) and `internal_resolve_cancel_stream` (lib.rs lines
823-833): `native_fees -= fee` resp. `accumulated_fees[contract_id] =
unwrap_or(0) - fee`, with checked subtraction. -/
def debitFee (c : Contract) (s : Stream) (fee_amount : Nat) : Except String Contract :=
  if s.is_native then do
    let nf ← sub? c.native_fees fee_amount
    .ok { c with native_fees := nf }
  else do
    let tf ← sub? ((mapGet c.accumulated_fees s.contract_id).getD 0) fee_amount
    .ok { c with accumulated_fees := mapInsert c.accumulated_fees s.contract_id tf }

/-- Data of an initiated external transfer: recipient and amount of the
transfer, plus the three values the source passes into
`internal_resolve_withdraw_stream` as "values to revert in case of failure". -/
structure PendingTransfer where
  recipient : Nat
  transfer_amount : Nat
  revert_amount : Nat
  revert_withdraw_time : Nat
  revert_fee : Nat
  deriving Repr, DecidableEq

/-- Amount already streamed to the receiver, computed by the sender path of
`withdraw`, src/contract/src/lib.rs lines 358-376. -/
def sender_streamed_amount (s : Stream) : Except String Nat :=
  if s.is_paused then
    if s.end_time > s.withdraw_time then do
      let d ← sub? s.paused_time s.withdraw_time
      .ok (s.rate * d)
    else .ok 0
  else
    if s.end_time > s.withdraw_time then do
      let d ← sub? s.end_time s.withdraw_time
      .ok (s.rate * d)
    else .ok 0

/-- Elapsed time and new withdraw boundary computed by the receiver path of
`withdraw`, src/contract/src/lib.rs lines 452-474: returns
`(time_elapsed, withdraw_time)`. -/
def receiver_elapsed (s : Stream) (now : Nat) : Except String (Nat × Nat) :=
  if now ≥ s.end_time then do
    require (s.withdraw_time < s.end_time) "Already withdrawn"
    if s.is_paused then do
      let d ← sub? s.paused_time s.withdraw_time
      .ok (d, now)
    else do
      let d ← sub? s.end_time s.withdraw_time
      .ok (d, now)
  else if s.is_paused then do
    let d ← sub? s.paused_time s.withdraw_time
    .ok (d, s.paused_time)
  else do
    let d ← sub? now s.withdraw_time
    .ok (d, now)

/-- The `withdraw` entry point, src/contract/src/lib.rs lines 316-567.
Returns the updated contract and the initiated transfer. -/
def withdraw (c : Contract) (caller : Nat) (now : Nat) (deposit : Nat)
    (stream_id : Nat) : Except String (Contract × PendingTransfer) := do
  require (deposit = 1) "Requires attached deposit of exactly 1 yoctoNEAR"
  let temp_stream ← getStream c stream_id
  require (temp_stream.locked = false) "Some other operation is happening in the stream"
  require (temp_stream.balance > 0) "No balance to withdraw"
  require (temp_stream.is_cancelled = false) "Stream is cancelled by sender already!"
  require (now > temp_stream.start_time) "The stream has not started yet"
  require (caller = temp_stream.sender ∨ caller = temp_stream.receiver)
    "You dont have permissions to withdraw"
  if caller = temp_stream.sender then do
    -- Case: sender withdraws excess amount from the stream after it has ended
    require (now > temp_stream.end_time) "Cannot withdraw before the stream has ended"
    let withdrawal_amount ← sender_streamed_amount temp_stream
    let remaining_balance ← sub? temp_stream.balance withdrawal_amount
    require (remaining_balance > 0) "Already withdrawn"
    let bal ← sub? temp_stream.balance remaining_balance
    let ts := { temp_stream with balance := bal, locked := true }
    let c1 := { c with streams := mapInsert c.streams stream_id ts }
    -- withdrawal_time_revert is the unchanged withdraw_time (lib.rs line 391)
    .ok (c1,
      { recipient := temp_stream.sender
        transfer_amount := remaining_balance
        revert_amount := remaining_balance
        revert_withdraw_time := temp_stream.withdraw_time
        revert_fee := 0 })
  else do
    -- case: when receiver withdraws from the stream
    let (time_elapsed, withdraw_time) ← receiver_elapsed temp_stream now
    let withdrawal_amount := temp_stream.rate * time_elapsed
    require (withdrawal_amount > 0) "There is no balance to withdraw"
    -- withdrawal_time_revert is the NEW boundary (lib.rs line 485)
    let bal ← sub? temp_stream.balance withdrawal_amount
    let ts := { temp_stream with
      balance := bal
      withdraw_time := withdraw_time
      withdrawn_amount := temp_stream.withdrawn_amount + withdrawal_amount
      locked := true }
    let c1 := { c with streams := mapInsert c.streams stream_id ts }
    let fee_amount := calculate_fee_amount c1 withdrawal_amount
    if fee_amount > 0 then do
      let c2 := creditFee c1 ts fee_amount
      let transfer_amount ← sub? withdrawal_amount fee_amount
      .ok (c2,
        { recipient := temp_stream.receiver
          transfer_amount := transfer_amount
          revert_amount := withdrawal_amount
          revert_withdraw_time := withdraw_time
          revert_fee := fee_amount })
    else
      .ok (c1,
        { recipient := temp_stream.receiver
          transfer_amount := withdrawal_amount
          revert_amount := withdrawal_amount
          revert_withdraw_time := withdraw_time
          revert_fee := fee_amount })

/-- The withdraw resolution callback, src/contract/src/lib.rs lines 272-314.
`res` is whether the promise (external transfer) succeeded. -/
def internal_resolve_withdraw_stream (c : Contract) (stream_id : Nat)
    (withdrawal_amount : Nat) (withdraw_time : Nat) (fee_amount : Nat)
    (res : Bool) : Except String (Contract × Bool) := do
  let temp_stream ← getStream c stream_id
  let ts := { temp_stream with locked := false }
  if res then
    .ok ({ c with streams := mapInsert c.streams stream_id ts }, res)
  else do
    -- In case of failure revert the changed states
    let ts := { ts with balance := ts.balance + withdrawal_amount }
    let ts := if withdraw_time < ts.withdraw_time
      then { ts with withdraw_time := withdraw_time } else ts
    let c1 ← debitFee c ts fee_amount
    .ok ({ c1 with streams := mapInsert c1.streams stream_id ts }, res)

/-- The `pause` entry point, src/contract/src/lib.rs lines 569-612. -/
def pause (c : Contract) (caller : Nat) (now : Nat) (stream_id : Nat) :
    Except String Contract := do
  let stream ← getStream c stream_id
  require (stream.locked = false) "Some other operation is happening in the stream"
  require (caller = stream.sender) "Stream can only be paused by the sender"
  require (stream.is_cancelled = false) "Cannot pause cancelled stream"
  require (stream.is_paused = false) "Cannot pause already paused stream"
  require (stream.start_time < now ∧ now < stream.end_time)
    "Stream can only be pause after it starts and before it has ended"
  let stream := { stream with is_paused := true, paused_time := now }
  .ok { c with streams := mapInsert c.streams stream_id stream }

/-- The `resume` entry point, src/contract/src/lib.rs lines 614-659. -/
def resume (c : Contract) (caller : Nat) (now : Nat) (stream_id : Nat) :
    Except String Contract := do
  let stream ← getStream c stream_id
  require (stream.locked = false) "Some other operation is happening in the stream"
  require (caller = stream.sender) "Stream can only be resumed by the sender"
  require (stream.is_paused = true) "Cannot resume unpaused stream"
  require (stream.is_cancelled = false) "Cannot resume cancelled stream"
  let stream := { stream with is_paused := false }
  -- Update the withdraw_time so that the receiver will not be
  -- able to withdraw fund for paused time (lib.rs lines 641-647)
  let stream ←
    if now > stream.end_time then do
      let d ← sub? stream.end_time stream.paused_time
      .ok { stream with
        withdraw_time := stream.withdraw_time + d
        paused_amount := stream.paused_amount + d * stream.rate }
    else do
      let d ← sub? now stream.paused_time
      .ok { stream with
        withdraw_time := stream.withdraw_time + d
        paused_amount := stream.paused_amount + d * stream.rate }
  let stream := { stream with paused_time := 0 }
  .ok { c with streams := mapInsert c.streams stream_id stream }

/-- Data of the external transfer initiated by `cancel`: recipient and amount,
plus the two values passed to `internal_resolve_cancel_stream`. -/
structure PendingCancel where
  recipient : Nat
  transfer_amount : Nat
  revert_amount : Nat
  revert_fee : Nat
  deriving Repr, DecidableEq

/-- The `cancel` entry point, src/contract/src/lib.rs lines 661-804.
Returns `none` for the synchronous `receiver_amt == 0` completion
(no transfer, no lock), `some` for an initiated transfer. -/
def cancel (c : Contract) (caller : Nat) (now : Nat) (deposit : Nat)
    (stream_id : Nat) : Except String (Contract × Option PendingCancel) := do
  require (deposit = 1) "Requires attached deposit of exactly 1 yoctoNEAR"
  let temp_stream ← getStream c stream_id
  require (temp_stream.locked = false) "Some other operation is happening in the stream"
  require (temp_stream.can_cancel = true) "Stream cannot be cancelled"
  require (caller = temp_stream.sender) "Stream can only be cancelled by the stream sender"
  require (temp_stream.end_time > now) "Stream already ended"
  require (temp_stream.is_cancelled = false) "already cancelled!"
  -- lib.rs line 700: withdraw_time is overwritten BEFORE the amount computation
  let ts := { temp_stream with withdraw_time := now }
  let (receiver_amt, ts) ←
    if now < ts.start_time then
      .ok ((0 : Nat), ts)
    else if ts.is_paused then do
      let d ← sub? ts.paused_time ts.withdraw_time
      .ok (d * ts.rate, { ts with withdraw_time := ts.paused_time })
    else do
      let d ← sub? now ts.withdraw_time
      .ok (d * ts.rate, ts)
  let bal ← sub? ts.balance receiver_amt
  let ts := { ts with
    balance := bal
    withdrawn_amount := ts.withdrawn_amount + receiver_amt
    is_cancelled := true }
  -- Lock only if transfer will occur
  let ts := if receiver_amt > 0 then { ts with locked := true } else ts
  let c1 := { c with streams := mapInsert c.streams stream_id ts }
  if receiver_amt = 0 then
    .ok (c1, none)
  else do
    let fee_amount := calculate_fee_amount c1 receiver_amt
    if fee_amount > 0 then do
      let c2 := creditFee c1 ts fee_amount
      let transfer_amount ← sub? receiver_amt fee_amount
      .ok (c2,
        some { recipient := temp_stream.receiver
               transfer_amount := transfer_amount
               revert_amount := receiver_amt
               revert_fee := fee_amount })
    else
      .ok (c1,
        some { recipient := temp_stream.receiver
               transfer_amount := receiver_amt
               revert_amount := receiver_amt
               revert_fee := fee_amount })

/-- The cancel resolution callback, src/contract/src/lib.rs lines 806-837. -/
def internal_resolve_cancel_stream (c : Contract) (stream_id : Nat)
    (withdrawal_amount : Nat) (fee_amount : Nat) (res : Bool) :
    Except String (Contract × Bool) := do
  let temp_stream ← getStream c stream_id
  let ts := { temp_stream with locked := false }
  if res then
    .ok ({ c with streams := mapInsert c.streams stream_id ts }, res)
  else do
    -- In case of failure revert the withdrawal_amount and the is_cancelled state
    let ts := { ts with balance := ts.balance + withdrawal_amount, is_cancelled := false }
    let c1 ← debitFee c ts fee_amount
    .ok ({ c1 with streams := mapInsert c1.streams stream_id ts }, res)

/-- Data of the external transfer initiated by `claim`. -/
structure PendingClaim where
  recipient : Nat
  transfer_amount : Nat
  revert_amount : Nat
  deriving Repr, DecidableEq

/-- The `claim` entry point (sender recovers a cancelled stream's balance),
src/contract/src/lib.rs lines 859-933. -/
def claim (c : Contract) (caller : Nat) (deposit : Nat) (stream_id : Nat) :
    Except String (Contract × PendingClaim) := do
  require (deposit = 1) "Requires attached deposit of exactly 1 yoctoNEAR"
  let temp_stream ← getStream c stream_id
  require (temp_stream.locked = false) "Some other operation is happening in the stream"
  require (temp_stream.sender = caller) "not sender"
  require (temp_stream.is_cancelled = true) "stream is not cancelled!"
  let balance := temp_stream.balance
  require (balance > 0) "amount <= 0"
  let ts := { temp_stream with balance := 0, locked := true }
  let c1 := { c with streams := mapInsert c.streams stream_id ts }
  .ok (c1,
    { recipient := temp_stream.sender
      transfer_amount := balance
      revert_amount := balance })

/-- The claim resolution callback, src/contract/src/lib.rs lines 839-857. -/
def internal_resolve_claim_stream (c : Contract) (stream_id : Nat)
    (withdrawal_amount : Nat) (res : Bool) : Except String (Contract × Bool) := do
  let temp_stream ← getStream c stream_id
  let ts := { temp_stream with locked := false }
  if res then
    .ok ({ c with streams := mapInsert c.streams stream_id ts }, res)
  else
    -- In case of failure revert the withdrawal_amount
    let ts := { ts with balance := ts.balance + withdrawal_amount }
    .ok ({ c with streams := mapInsert c.streams stream_id ts }, res)

/-- The `update` entry point, src/contract/src/lib.rs lines 184-270. -/
def update (c : Contract) (caller : Nat) (now : Nat) (deposit : Nat)
    (stream_id : Nat) (startOpt : Option Nat) (endOpt : Option Nat)
    (rateOpt : Option Nat) : Except String Contract := do
  let stream ← getStream c stream_id
  require (stream.is_native = true) "not native stream!"
  require (stream.locked = false) "Some other operation is happening in the stream"
  require (caller = stream.sender) "You are not authorized to update this stream"
  require (stream.can_update = true) "Stream cannot be updated"
  require (stream.is_cancelled = false) "Stream has already been cancelled"
  let rate := rateOpt.getD stream.rate
  let start_time := startOpt.getD stream.start_time
  let end_time := endOpt.getD stream.end_time
  require (stream.start_time > now) "Cannot update: stream already started"
  require (start_time < end_time) "Start time should be less than end time"
  if start_time ≠ stream.start_time then
    require (start_time ≥ now) "Start time cannot be in the past"
  require (rate > 0) "Rate cannot be zero"
  require (rate < MAX_RATE) "Rate is too high"
  let stream := { stream with
    start_time := start_time
    withdraw_time := start_time
    end_time := end_time
    rate := rate }
  let stream_duration ← sub? stream.end_time stream.start_time
  let stream_amount := stream_duration * rate
  let stream ←
    if stream_amount > stream.balance then do
      let shortfall ← sub? stream_amount stream.balance
      require (deposit ≥ shortfall) "The amount provided is not enough for the stream"
      .ok { stream with balance := stream.balance + deposit }
    else do
      -- assert_one_yocto() (lib.rs line 257)
      require (deposit = 1) "Requires attached deposit of exactly 1 yoctoNEAR"
      .ok stream
  .ok { c with streams := mapInsert c.streams stream_id stream }

/-- Stream construction and validation, `validate_stream` in
src/contract/src/utils.rs lines 13-81.  The source constructor omits the
`paused_amount`, `total_amount` and `withdrawn_amount` fields (the given
source is stale there); they are taken as 0 for a fresh stream. -/
def validate_stream (now : Nat) (stream_id : Nat) (sender receiver : Nat)
    (stream_rate : Nat) (start endT : Nat) (can_cancel can_update : Bool)
    (is_native : Bool) (contract_id : Nat) : Except String Stream := do
  require (receiver ≠ sender) "Sender and receiver cannot be Same"
  require (start ≥ now) "Start time cannot be in the past"
  require (endT ≥ start) "End time cannot smaller than start time"
  require (stream_rate > 0) "Rate cannot be zero"
  require (stream_rate < MAX_RATE) "Rate is too high"
  let stream_duration ← sub? endT start
  let stream_amount := stream_duration * stream_rate
  let near_token_id := if is_native then NATIVE_NEAR_CONTRACT_ID else contract_id
  .ok { id := stream_id
        sender := sender
        receiver := receiver
        rate := stream_rate
        is_paused := false
        is_cancelled := false
        balance := stream_amount
        created := now
        start_time := start
        end_time := endT
        withdraw_time := start
        paused_time := 0
        contract_id := near_token_id
        can_cancel := can_cancel
        can_update := can_update
        is_native := is_native
        locked := false
        paused_amount := 0
        total_amount := 0
        withdrawn_amount := 0 }

/-- The `create_stream` entry point, src/contract/src/lib.rs lines 104-182.
`registered` models `self.accounts.get(&caller).is_some()`; `storage_ok`
models the prepaid-storage check after the insert (a failed check panics and
rolls the whole call back).  Returns the fresh stream id. -/
def create_stream (c : Contract) (caller : Nat) (now : Nat) (deposit : Nat)
    (registered : Bool) (storage_ok : Bool) (receiver : Nat) (stream_rate : Nat)
    (start endT : Nat) (can_cancel can_update : Bool) :
    Except String (Contract × Nat) := do
  require (registered = true) "Not registered!"
  let params_key := c.current_id
  let stream ← validate_stream now params_key caller receiver stream_rate start endT
    can_cancel can_update true NATIVE_NEAR_CONTRACT_ID
  require (deposit = stream.balance) "The amount provided doesn't matches the stream"
  let c1 := { c with streams := mapInsert c.streams params_key stream }
  require (storage_ok = true) "Deposit more storage balance!"
  .ok ({ c1 with current_id := c1.current_id + 1 }, params_key)

/-! Helper lemmas about the map model and basic combinators. -/

theorem mapGet_mapInsert_self {α : Type} (m : List (Nat × α)) (k : Nat) (v : α) :
    mapGet (mapInsert m k v) k = some v := by
  induction m with
  | nil => simp [mapInsert, mapGet]
  | cons hd tl ih =>
      obtain ⟨k', v'⟩ := hd
      by_cases h : k' = k <;> simp [mapInsert, mapGet, h, ih]

theorem mapGet_mapInsert_ne {α : Type} (m : List (Nat × α)) (k k' : Nat) (v : α)
    (h : k ≠ k') : mapGet (mapInsert m k v) k' = mapGet m k' := by
  induction m with
  | nil => simp [mapInsert, mapGet, h]
  | cons hd tl ih =>
      obtain ⟨k₀, v₀⟩ := hd
      by_cases h₀ : k₀ = k
      · subst h₀; simp [mapInsert, mapGet, h]
      · simp [mapInsert, mapGet, h₀, h, ih]

theorem bind_ok {α β : Type} (a : α) (f : α → Except String β) :
    (Except.ok a >>= f) = f a := rfl

theorem bind_error {α β : Type} (msg : String) (f : α → Except String β) :
    ((Except.error msg : Except String α) >>= f) = Except.error msg := rfl

theorem require_pos {p : Prop} [Decidable p] (hp : p) (msg : String) :
    require p msg = .ok () := by simp [require, hp]

theorem require_neg {p : Prop} [Decidable p] (hp : ¬p) (msg : String) :
    require p msg = .error msg := by simp [require, hp]

theorem sub_ok {a b : Nat} (h : b ≤ a) : sub? a b = .ok (a - b) := by simp [sub?, h]

instance exceptDecEq {ε α : Type} [DecidableEq ε] [DecidableEq α] : DecidableEq (Except ε α)
  | .error a, .error b =>
      if h : a = b then .isTrue (by rw [h]) else .isFalse (by simp [h])
  | .ok a, .ok b =>
      if h : a = b then .isTrue (by rw [h]) else .isFalse (by simp [h])
  | .error _, .ok _ => .isFalse (by simp)
  | .ok _, .error _ => .isFalse (by simp)

theorem bind_eq_ok {α β : Type} {x : Except String α} {f : α → Except String β} {b : β}
    (h : (x >>= f) = .ok b) : ∃ a, x = .ok a ∧ f a = .ok b := by
  cases x with
  | error m => rw [bind_error] at h; exact absurd h (by simp)
  | ok a => exact ⟨a, rfl, h⟩

theorem require_eq_ok {p : Prop} [Decidable p] {msg : String} {u : Unit}
    (h : require p msg = .ok u) : p := by
  by_cases hp : p
  · exact hp
  · rw [require_neg hp] at h; exact absurd h (by simp)

theorem getStream_eq_ok {c : Contract} {stream_id : Nat} {s : Stream}
    (h : getStream c stream_id = .ok s) : mapGet c.streams stream_id = some s := by
  unfold getStream at h
  cases hm : mapGet c.streams stream_id <;> rw [hm] at h
  · exact absurd h (by simp)
  · injection h with h; rw [h]

theorem sub_eq_ok {a b r : Nat} (h : sub? a b = .ok r) : b ≤ a ∧ r = a - b := by
  unfold sub? at h
  split at h
  · refine ⟨by assumption, ?_⟩
    injection h with h
    omega
  · exact absurd h (by simp)

theorem creditFee_streams (c : Contract) (s : Stream) (f : Nat) :
    (creditFee c s f).streams = c.streams ∧ (creditFee c s f).current_id = c.current_id ∧
      (creditFee c s f).fee_rate = c.fee_rate := by
  unfold creditFee; split <;> exact ⟨rfl, rfl, rfl⟩

/-- A call that panics: its result is an error, so (NEAR semantics) no state
was changed. -/
def Fails {α : Type} (r : Except String α) : Prop :=
  match r with
  | .error _ => True
  | .ok _ => False

theorem fails_of_error {α : Type} (msg : String) : Fails (α := α) (.error msg) := by
  trivial

theorem debitFee_streams (c : Contract) (s : Stream) (fa : Nat) (c' : Contract)
    (h : debitFee c s fa = .ok c') : c'.streams = c.streams ∧ c'.current_id = c.current_id := by
  unfold debitFee sub? at h
  split at h <;> split at h <;>
    simp only [bind_ok, bind_error, Except.ok.injEq, reduceCtorEq] at h <;>
    first
      | exact absurd h (by simp)
      | (subst h; exact ⟨rfl, rfl⟩)

/-- C3: a stream whose `locked` flag is set rejects every lifecycle call —
withdraw, pause, resume, cancel, claim and update all return an error (hence,
by the abort semantics, leave the contract state unchanged) — and each
transfer-resolution callback clears `locked` on the stream it resolves, so no
second withdrawal can be computed from a tentatively decremented balance. -/
theorem C3_locked_rejects_other_ops (c : Contract) (id : Nat) (s : Stream)
    (hget : mapGet c.streams id = some s) (hlocked : s.locked = true) :
    (∀ caller now dep, Fails (withdraw c caller now dep id)) ∧
    (∀ caller now, Fails (pause c caller now id)) ∧
    (∀ caller now, Fails (resume c caller now id)) ∧
    (∀ caller now dep, Fails (cancel c caller now dep id)) ∧
    (∀ caller dep, Fails (claim c caller dep id)) ∧
    (∀ caller now dep st en rt, Fails (update c caller now dep id st en rt)) ∧
    (∀ wa wt fa res c' b,
      internal_resolve_withdraw_stream c id wa wt fa res = .ok (c', b) →
      ∃ s', mapGet c'.streams id = some s' ∧ s'.locked = false) ∧
    (∀ wa fa res c' b,
      internal_resolve_cancel_stream c id wa fa res = .ok (c', b) →
      ∃ s', mapGet c'.streams id = some s' ∧ s'.locked = false) ∧
    (∀ wa res c' b,
      internal_resolve_claim_stream c id wa res = .ok (c', b) →
      ∃ s', mapGet c'.streams id = some s' ∧ s'.locked = false) := by
  refine ⟨?_, ?_, ?_, ?_, ?_, ?_, ?_, ?_, ?_⟩
  · intro caller now dep
    by_cases hdep : dep = 1
    · simp [withdraw, getStream, hget, require, hdep, hlocked, bind_ok, bind_error, Fails]
    · simp [withdraw, require, hdep, bind_error, Fails]
  · intro caller now
    simp [pause, getStream, hget, require, hlocked, bind_ok, bind_error, Fails]
  · intro caller now
    simp [resume, getStream, hget, require, hlocked, bind_ok, bind_error, Fails]
  · intro caller now dep
    by_cases hdep : dep = 1
    · simp [cancel, getStream, hget, require, hdep, hlocked, bind_ok, bind_error, Fails]
    · simp [cancel, require, hdep, bind_error, Fails]
  · intro caller dep
    by_cases hdep : dep = 1
    · simp [claim, getStream, hget, require, hdep, hlocked, bind_ok, bind_error, Fails]
    · simp [claim, require, hdep, bind_error, Fails]
  · intro caller now dep st en rt
    by_cases hnat : s.is_native = true
    · simp [update, getStream, hget, require, hnat, hlocked, bind_ok, bind_error, Fails]
    · simp [update, getStream, hget, require, hnat, bind_ok, bind_error, Fails]
  · intro wa wt fa res c' b h
    simp only [internal_resolve_withdraw_stream, getStream, hget, bind_ok] at h
    cases res with
    | true =>
        simp only [if_true] at h
        injection h with h
        injection h with h₁ h₂
        subst h₁
        exact ⟨_, mapGet_mapInsert_self _ _ _, rfl⟩
    | false =>
        simp only [Bool.false_eq_true, if_false] at h
        obtain ⟨c1, hdf, h⟩ := bind_eq_ok h
        injection h with h
        injection h with h₁ h₂
        subst h₁
        refine ⟨_, mapGet_mapInsert_self _ _ _, ?_⟩
        split <;> rfl
  · intro wa fa res c' b h
    simp only [internal_resolve_cancel_stream, getStream, hget, bind_ok] at h
    cases res with
    | true =>
        simp only [if_true] at h
        injection h with h
        injection h with h₁ h₂
        subst h₁
        exact ⟨_, mapGet_mapInsert_self _ _ _, rfl⟩
    | false =>
        simp only [Bool.false_eq_true, if_false] at h
        obtain ⟨c1, hdf, h⟩ := bind_eq_ok h
        injection h with h
        injection h with h₁ h₂
        subst h₁
        exact ⟨_, mapGet_mapInsert_self _ _ _, rfl⟩
  · intro wa res c' b h
    simp only [internal_resolve_claim_stream, getStream, hget, bind_ok] at h
    cases res with
    | true =>
        simp only [if_true] at h
        injection h with h
        injection h with h₁ h₂
        subst h₁
        exact ⟨_, mapGet_mapInsert_self _ _ _, rfl⟩
    | false =>
        simp only [Bool.false_eq_true, if_false] at h
        injection h with h
        injection h with h₁ h₂
        subst h₁
        exact ⟨_, mapGet_mapInsert_self _ _ _, rfl⟩

/-- Base contract for concrete scenarios: fee rate 25 bps (as in the repository
tests), no streams yet. -/
def baseContract : Contract :=
  { current_id := 1, streams := [], fee_rate := 25, native_fees := 0, accumulated_fees := [] }

/-- Concrete locked stream (a receiver withdraw of 2 at time 102 is in flight). -/
def c3Stream : Stream :=
  { id := 1, sender := 10, receiver := 11, balance := 8, rate := 1, created := 100,
    start_time := 100, end_time := 110, withdraw_time := 102, is_paused := false,
    is_cancelled := false, paused_time := 0, contract_id := 0, can_update := true,
    can_cancel := true, is_native := true, locked := true, paused_amount := 0,
    total_amount := 0, withdrawn_amount := 2 }

/-- Contract holding the locked stream `c3Stream` under id 1. -/
def c3Contract : Contract :=
  { current_id := 2, streams := [(1, c3Stream)], fee_rate := 25,
    native_fees := 0, accumulated_fees := [] }

/-- Witness for C3 at a concrete locked stream. -/
theorem C3_locked_rejects_other_ops_witness :
    mapGet c3Contract.streams 1 = some c3Stream ∧ c3Stream.locked = true ∧
    Fails (withdraw c3Contract 11 105 1 1) ∧ Fails (pause c3Contract 10 105 1) :=
  ⟨by decide, by decide,
   (C3_locked_rejects_other_ops c3Contract 1 c3Stream (by decide) (by decide)).1 11 105 1,
   (C3_locked_rejects_other_ops c3Contract 1 c3Stream (by decide) (by decide)).2.1 10 105⟩

/-- C1 (code bug): for a receiver-path withdraw whose transfer fails, the
rollback does NOT restore `withdraw_time`.  The source passes the NEW
boundary as `withdrawal_time_revert` (lib.rs line 485), so the callback's
`withdraw_time.0 < temp_stream.withdraw_time` test (lib.rs line 295) is
always false and the "Revert the withdraw time" branch never fires.
Concretely: stream rate 1, start 100, end 110; the receiver withdraws 5 at
time 105, the transfer fails; the rollback restores balance to 10 and
unlocks, but `withdraw_time` stays at 105 instead of returning to 100. -/
theorem C1_failed_rollback_keeps_new_withdraw_time :
    (do
      let (c1, _) ← create_stream baseContract 10 100 10 true true 11 1 100 110 false false
      .ok ((mapGet c1.streams 1).map (fun (s : Stream) => (s.balance, s.withdraw_time))))
      = .ok (some ((10 : Nat), (100 : Nat))) ∧
    (do
      let (c1, _) ← create_stream baseContract 10 100 10 true true 11 1 100 110 false false
      let (c2, pt) ← withdraw c1 11 105 1 1
      let (c3, r) ← internal_resolve_withdraw_stream c2 1
        pt.revert_amount pt.revert_withdraw_time pt.revert_fee false
      .ok ((mapGet c3.streams 1).map (fun (s : Stream) => (s.balance, s.withdraw_time, s.locked)),
           c3.native_fees, r))
      = .ok (some ((10 : Nat), (105 : Nat), false), 0, false) ∧
    ¬ (105 : Nat) = 100 := by decide

/-- C2 (code bug): `cancel` overwrites `withdraw_time` with `now`
(lib.rs line 700) BEFORE computing the receiver amount, so the non-paused
branch computes `now - now = 0` and pays the receiver nothing (the paused
branch even computes `paused_time - now`, which underflows and aborts).
Concretely (the scenario of the repository's own `test_cancel`, which
asserts a remaining balance of 9): rate 1, start 100, end 110, balance 10,
cancel by the sender at time 101; the claim (and the test) say the receiver
is owed `rate * (now - withdraw_time_before) = 1` leaving balance 9, but the
code leaves balance 10, `withdrawn_amount` 0 and starts no transfer; and
cancelling a stream paused at 104 at time 106 aborts with an underflow. -/
theorem C2_cancel_pays_receiver_zero :
    (do
      let (c1, _) ← create_stream baseContract 10 100 10 true true 11 1 100 110 true false
      let (c2, pc) ← cancel c1 10 101 1 1
      .ok ((mapGet c2.streams 1).map
            (fun (s : Stream) => (s.balance, s.withdrawn_amount, s.is_cancelled)), pc))
      = .ok (some ((10 : Nat), (0 : Nat), true), none) ∧
    (do
      let (c1, _) ← create_stream baseContract 10 100 10 true true 11 1 100 110 true false
      let c2 ← pause c1 10 104 1
      cancel c2 10 106 1 1)
      = .error "attempt to subtract with overflow" := by decide

/-- C4 counterexample: the invariant `start_time ≤ withdraw_time ≤ end_time`
is violated by two reachable operations.  A receiver-path withdraw at
`now ≥ end_time` sets `withdraw_time = now` (lib.rs line 461): withdrawing at
125 on a stream ending at 110 leaves `withdraw_time = 125 > 110`.  And
`cancel` before the start sets `withdraw_time = now` (lib.rs line 700):
cancelling at 105 a stream starting at 110 leaves `withdraw_time = 105 < 110`. -/
theorem C4_counterexample :
    (do
      let (c1, _) ← create_stream baseContract 10 100 10 true true 11 1 100 110 false false
      let (c2, _) ← withdraw c1 11 125 1 1
      .ok ((mapGet c2.streams 1).map (fun (s : Stream) => (s.withdraw_time, s.end_time))))
      = .ok (some ((125 : Nat), (110 : Nat))) ∧
    ¬ (125 : Nat) ≤ 110 ∧
    (do
      let (c1, _) ← create_stream baseContract 10 100 10 true true 11 1 110 120 true false
      let (c2, _) ← cancel c1 10 105 1 1
      .ok ((mapGet c2.streams 1).map (fun (s : Stream) => (s.withdraw_time, s.start_time))))
      = .ok (some ((105 : Nat), (110 : Nat))) ∧
    ¬ (110 : Nat) ≤ 105 := by decide

/-- C7 counterexample: `balance ≤ original deposit` fails after an `update`
that raises the rate: the stream is created with deposit 10 (rate 1,
start 110, end 120) and updated before start to rate 2 with 15 attached;
the code adds the ENTIRE attached deposit, leaving balance 25 > 10. -/
theorem C7_counterexample :
    (do
      let (c1, _) ← create_stream baseContract 10 100 10 true true 11 1 110 120 true true
      let c2 ← update c1 10 101 15 1 none none (some 2)
      .ok ((mapGet c2.streams 1).map Stream.balance))
      = .ok (some (25 : Nat)) ∧
    ¬ (25 : Nat) ≤ 10 := by decide

/-- C9: `create_stream` validates in order — receiver ≠ sender, start ≥ now,
end ≥ start, 0 < rate < MAX_RATE, attached deposit = rate * (end − start) —
each failing check aborting the call with no state change; on success the
inserted stream has balance = rate * (end − start), withdraw_time = start,
paused_time = 0, is_paused = is_cancelled = locked = false, and the global
id counter advances by exactly one. -/
theorem C9_create_stream_validation (c : Contract) (caller receiver : Nat)
    (now deposit rate start endT : Nat) (cc cu : Bool) :
    (receiver = caller →
      create_stream c caller now deposit true true receiver rate start endT cc cu
        = .error "Sender and receiver cannot be Same") ∧
    (receiver ≠ caller → start < now →
      create_stream c caller now deposit true true receiver rate start endT cc cu
        = .error "Start time cannot be in the past") ∧
    (receiver ≠ caller → now ≤ start → endT < start →
      create_stream c caller now deposit true true receiver rate start endT cc cu
        = .error "End time cannot smaller than start time") ∧
    (receiver ≠ caller → now ≤ start → start ≤ endT → rate = 0 →
      create_stream c caller now deposit true true receiver rate start endT cc cu
        = .error "Rate cannot be zero") ∧
    (receiver ≠ caller → now ≤ start → start ≤ endT → 0 < rate → MAX_RATE ≤ rate →
      create_stream c caller now deposit true true receiver rate start endT cc cu
        = .error "Rate is too high") ∧
    (receiver ≠ caller → now ≤ start → start ≤ endT → 0 < rate → rate < MAX_RATE →
      deposit ≠ rate * (endT - start) →
      create_stream c caller now deposit true true receiver rate start endT cc cu
        = .error "The amount provided doesn't matches the stream") ∧
    (receiver ≠ caller → now ≤ start → start ≤ endT → 0 < rate → rate < MAX_RATE →
      deposit = rate * (endT - start) →
      create_stream c caller now deposit true true receiver rate start endT cc cu
        = .ok ({ c with
            streams := mapInsert c.streams c.current_id
              { id := c.current_id
                sender := caller
                receiver := receiver
                balance := rate * (endT - start)
                rate := rate
                created := now
                start_time := start
                end_time := endT
                withdraw_time := start
                is_paused := false
                is_cancelled := false
                paused_time := 0
                contract_id := NATIVE_NEAR_CONTRACT_ID
                can_update := cu
                can_cancel := cc
                is_native := true
                locked := false
                paused_amount := 0
                total_amount := 0
                withdrawn_amount := 0 }
            current_id := c.current_id + 1 }, c.current_id)) := by
  refine ⟨?_, ?_, ?_, ?_, ?_, ?_, ?_⟩
  · intro h1
    simp [create_stream, validate_stream, require, h1, bind_ok, bind_error]
  · intro h1 h2
    have h2' : ¬ start ≥ now := by omega
    simp [create_stream, validate_stream, require, h1, h2', bind_ok, bind_error]
  · intro h1 h2 h3
    have h3' : ¬ endT ≥ start := by omega
    simp [create_stream, validate_stream, require, h1, h2, h3', bind_ok, bind_error]
  · intro h1 h2 h3 h4
    simp [create_stream, validate_stream, require, h1, h2, h3, h4, bind_ok, bind_error]
  · intro h1 h2 h3 h4 h5
    have h5' : ¬ rate < MAX_RATE := by omega
    simp [create_stream, validate_stream, require, h1, h2, h3, h4, h5', bind_ok, bind_error]
  · intro h1 h2 h3 h4 h5 h6
    have h6' : ¬ deposit = (endT - start) * rate := by rw [Nat.mul_comm]; exact h6
    simp [create_stream, validate_stream, require, sub_ok h3, h1, h2, h3, h4, h5, h6',
      bind_ok, bind_error]
  · intro h1 h2 h3 h4 h5 h6
    have h6' : deposit = (endT - start) * rate := by rw [Nat.mul_comm]; exact h6
    simp [create_stream, validate_stream, require, sub_ok h3, h1, h2, h3, h4, h5, h6',
      bind_ok, bind_error, Nat.mul_comm rate (endT - start)]

/-- Witness for C9: first and fifth validation checks at concrete inputs. -/
theorem C9_create_stream_validation_witness :
    create_stream baseContract 10 100 10 true true 10 1 100 110 true false
      = .error "Sender and receiver cannot be Same" ∧
    create_stream baseContract 10 100 9 true true 11 1 100 110 true false
      = .error "The amount provided doesn't matches the stream" :=
  ⟨(C9_create_stream_validation baseContract 10 10 100 10 1 100 110 true false).1 rfl,
   (C9_create_stream_validation baseContract 10 11 100 9 1 100 110 true false).2.2.2.2.2.1
     (by decide) (by decide) (by decide) (by decide) (by decide) (by decide)⟩

/-- C10: `update` is accepted only for native streams (aborting with
"not native stream!" otherwise), only before the stream starts, only by the
sender of a `can_update` stream that is neither cancelled nor locked; on
success it sets `withdraw_time` to the new start time, and when the new
`rate * (end − start)` exceeds the current balance it adds the ENTIRE
attached deposit (which may exceed the shortfall) to the balance. -/
theorem C10_update_guards_and_effect (c : Contract) (stream_id : Nat) (s : Stream)
    (hget : mapGet c.streams stream_id = some s) :
    (s.is_native = false → ∀ caller now dep st en rt,
      update c caller now dep stream_id st en rt = .error "not native stream!") ∧
    (s.is_native = true → s.locked = true → ∀ caller now dep st en rt,
      update c caller now dep stream_id st en rt
        = .error "Some other operation is happening in the stream") ∧
    (s.is_native = true → s.locked = false → ∀ caller now dep st en rt, caller ≠ s.sender →
      update c caller now dep stream_id st en rt
        = .error "You are not authorized to update this stream") ∧
    (s.is_native = true → s.locked = false → s.can_update = false →
      ∀ now dep st en rt,
      update c s.sender now dep stream_id st en rt = .error "Stream cannot be updated") ∧
    (s.is_native = true → s.locked = false → s.can_update = true → s.is_cancelled = true →
      ∀ now dep st en rt,
      update c s.sender now dep stream_id st en rt
        = .error "Stream has already been cancelled") ∧
    (s.is_native = true → s.locked = false → s.can_update = true → s.is_cancelled = false →
      ∀ now dep st en rt, s.start_time ≤ now →
      update c s.sender now dep stream_id st en rt
        = .error "Cannot update: stream already started") ∧
    (∀ now dep st en rt,
      s.is_native = true → s.locked = false → s.can_update = true → s.is_cancelled = false →
      now < s.start_time → st < en → now ≤ st → 0 < rt → rt < MAX_RATE →
      s.balance < (en - st) * rt → (en - st) * rt - s.balance ≤ dep →
      update c s.sender now dep stream_id (some st) (some en) (some rt)
        = .ok { c with streams := mapInsert c.streams stream_id ({ s with
              start_time := st
              withdraw_time := st
              end_time := en
              rate := rt
              balance := s.balance + dep }) }) := by
  refine ⟨?_, ?_, ?_, ?_, ?_, ?_, ?_⟩
  · intro hnat caller now dep st en rt
    simp [update, getStream, hget, require, hnat, bind_ok, bind_error]
  · intro hnat hlock caller now dep st en rt
    simp [update, getStream, hget, require, hnat, hlock, bind_ok, bind_error]
  · intro hnat hlock caller now dep st en rt hne
    simp [update, getStream, hget, require, hnat, hlock, hne, bind_ok, bind_error]
  · intro hnat hlock hcu now dep st en rt
    simp [update, getStream, hget, require, hnat, hlock, hcu, bind_ok, bind_error]
  · intro hnat hlock hcu hcanc now dep st en rt
    simp [update, getStream, hget, require, hnat, hlock, hcu, hcanc, bind_ok, bind_error]
  · intro hnat hlock hcu hcanc now dep st en rt hstart
    have hstart' : ¬ s.start_time > now := Nat.not_lt.mpr hstart
    simp [update, getStream, hget, require, hnat, hlock, hcu, hcanc, hstart',
      bind_ok, bind_error]
  · intro now dep st en rt hnat hlock hcu hcanc hstart hlt hnow hrt hmax hshort hdep
    have hle : st ≤ en := Nat.le_of_lt hlt
    by_cases hst : st = s.start_time
    · subst hst
      simp [update, getStream, hget, require, hnat, hlock, hcu, hcanc, hstart, hlt, hnow,
        hrt, hmax, sub_ok hle, hshort, sub_ok (Nat.le_of_lt hshort), hdep,
        bind_ok, bind_error]
    · simp [update, getStream, hget, require, hnat, hlock, hcu, hcanc, hstart, hlt, hnow,
        hrt, hmax, hst, sub_ok hle, hshort, sub_ok (Nat.le_of_lt hshort), hdep,
        bind_ok, bind_error]

/-- Concrete native stream that has not started (start 110, end 120, rate 1,
balance 10, updatable), for the C10 witness. -/
def c10Stream : Stream :=
  { id := 1, sender := 10, receiver := 11, balance := 10, rate := 1, created := 100,
    start_time := 110, end_time := 120, withdraw_time := 110, is_paused := false,
    is_cancelled := false, paused_time := 0, contract_id := 0, can_update := true,
    can_cancel := true, is_native := true, locked := false, paused_amount := 0,
    total_amount := 0, withdrawn_amount := 0 }

/-- Contract holding `c10Stream` under id 1. -/
def c10Contract : Contract :=
  { current_id := 2, streams := [(1, c10Stream)], fee_rate := 25,
    native_fees := 0, accumulated_fees := [] }

/-- Witness for C10: successful update at rate 2 attaching 15 (shortfall only
10), ending with balance 25, and the already-started rejection. -/
theorem C10_update_guards_and_effect_witness :
    update c10Contract 10 101 15 1 (some 110) (some 120) (some 2)
      = .ok { c10Contract with streams := mapInsert c10Contract.streams 1 ({ c10Stream with
          start_time := 110
          withdraw_time := 110
          end_time := 120
          rate := 2
          balance := c10Stream.balance + 15 }) } ∧
    update c10Contract 10 115 1 1 none none none
      = .error "Cannot update: stream already started" :=
  ⟨(C10_update_guards_and_effect c10Contract 1 c10Stream (by decide)).2.2.2.2.2.2
     101 15 110 120 2 (by decide) (by decide) (by decide) (by decide) (by decide)
     (by decide) (by decide) (by decide) (by decide) (by decide) (by decide),
   (C10_update_guards_and_effect c10Contract 1 c10Stream (by decide)).2.2.2.2.2.1
     (by decide) (by decide) (by decide) (by decide) 115 1 none none none (by decide)⟩

/-- C5: the sender path of `withdraw` (caller = sender, now > end_time)
computes the amount still owed to the receiver per the accounting engine —
`rate * (paused_time − withdraw_time)` if paused, else
`rate * (end_time − withdraw_time)`, and 0 when `withdraw_time ≥ end_time` —
rejects the call with "Already withdrawn" when `balance − owed` is not
positive, and otherwise decrements the balance by exactly `balance − owed`
(transferring that amount to the sender), leaving the owed amount in the
stream.  The final conjunct checks the spec scenario: rate 1, start 100
(= T), end 110, deposit 10, receiver withdraws at T+2, transfer confirmed,
then the sender withdrawal at T+11 is rejected as "Already withdrawn". -/
theorem C5_sender_withdraw (c : Contract) (stream_id : Nat) (s : Stream) (now : Nat)
    (hget : mapGet c.streams stream_id = some s)
    (hlock : s.locked = false) (hbal : 0 < s.balance) (hcanc : s.is_cancelled = false)
    (hstart : s.start_time < now) (hend : s.end_time < now)
    (hpw : s.is_paused = true → s.withdraw_time ≤ s.paused_time) :
    (∃ owed, sender_streamed_amount s = .ok owed ∧
      owed = (if s.is_paused = true
              then (if s.withdraw_time < s.end_time
                    then s.rate * (s.paused_time - s.withdraw_time) else 0)
              else (if s.withdraw_time < s.end_time
                    then s.rate * (s.end_time - s.withdraw_time) else 0)) ∧
      (s.balance = owed →
        withdraw c s.sender now 1 stream_id = .error "Already withdrawn") ∧
      (owed < s.balance →
        withdraw c s.sender now 1 stream_id
          = .ok ({ c with streams := mapInsert c.streams stream_id ({ s with
                balance := owed
                locked := true }) },
              { recipient := s.sender
                transfer_amount := s.balance - owed
                revert_amount := s.balance - owed
                revert_withdraw_time := s.withdraw_time
                revert_fee := 0 }))) ∧
    (do
      let (c1, _) ← create_stream baseContract 10 100 10 true true 11 1 100 110 false false
      let (c2, pt) ← withdraw c1 11 102 1 1
      let (c3, _) ← internal_resolve_withdraw_stream c2 1
        pt.revert_amount pt.revert_withdraw_time pt.revert_fee true
      withdraw c3 10 111 1 1)
      = .error "Already withdrawn" := by
  constructor
  · have howed : ∃ owed, sender_streamed_amount s = .ok owed ∧
        owed = (if s.is_paused = true
                then (if s.withdraw_time < s.end_time
                      then s.rate * (s.paused_time - s.withdraw_time) else 0)
                else (if s.withdraw_time < s.end_time
                      then s.rate * (s.end_time - s.withdraw_time) else 0)) := by
      cases hp : s.is_paused
      · by_cases hwt : s.withdraw_time < s.end_time
        · exact ⟨s.rate * (s.end_time - s.withdraw_time),
            by simp [sender_streamed_amount, hp, hwt, sub_ok (Nat.le_of_lt hwt), bind_ok],
            by simp [hp, hwt]⟩
        · exact ⟨0, by simp [sender_streamed_amount, hp, hwt], by simp [hp, hwt]⟩
      · by_cases hwt : s.withdraw_time < s.end_time
        · exact ⟨s.rate * (s.paused_time - s.withdraw_time),
            by simp [sender_streamed_amount, hp, hwt, sub_ok (hpw hp), bind_ok],
            by simp [hp, hwt]⟩
        · exact ⟨0, by simp [sender_streamed_amount, hp, hwt], by simp [hp, hwt]⟩
    obtain ⟨owed, hsa, hformula⟩ := howed
    refine ⟨owed, hsa, hformula, ?_, ?_⟩
    · intro heq
      simp [withdraw, require, getStream, hget, hlock, hbal, hcanc, hstart, hend, hsa,
        bind_ok, bind_error, sub?, ← heq]
    · intro hlt
      have h1 : owed ≤ s.balance := Nat.le_of_lt hlt
      have h2 : 0 < s.balance - owed := by omega
      have h3 : s.balance - (s.balance - owed) = owed := by omega
      simp [withdraw, require, getStream, hget, hlock, hbal, hcanc, hstart, hend, hsa,
        sub_ok h1, h2, sub_ok (Nat.sub_le s.balance owed), h3, bind_ok, bind_error]
  · decide

/-- Concrete ended stream where the receiver has already drawn everything owed
up to `withdraw_time` 102 and balance 8 equals the amount still owed. -/
def c5Stream : Stream :=
  { id := 1, sender := 10, receiver := 11, balance := 8, rate := 1, created := 100,
    start_time := 100, end_time := 110, withdraw_time := 102, is_paused := false,
    is_cancelled := false, paused_time := 0, contract_id := 0, can_update := false,
    can_cancel := false, is_native := true, locked := false, paused_amount := 0,
    total_amount := 0, withdrawn_amount := 2 }

/-- Contract holding `c5Stream` under id 1. -/
def c5Contract : Contract :=
  { current_id := 2, streams := [(1, c5Stream)], fee_rate := 25,
    native_fees := 0, accumulated_fees := [] }

/-- Witness for C5: sender withdrawal at time 111 on `c5Stream` (owed 8 =
balance 8) is rejected as "Already withdrawn". -/
theorem C5_sender_withdraw_witness :
    withdraw c5Contract 10 111 1 1 = .error "Already withdrawn" := by
  obtain ⟨⟨owed, hsa, hform, herr, hok⟩, hconc⟩ :=
    C5_sender_withdraw c5Contract 1 c5Stream 111 (by decide) (by decide) (by decide)
      (by decide) (by decide) (by decide) (by decide)
  have howed : owed = 8 := by rw [hform]; decide
  exact herr (by rw [howed]; decide)

/-- C8: on a receiver withdrawal of gross amount `A = rate * elapsed`, the fee
is `floor(A * fee_rate / 10000)`; the FULL amount `A` is deducted from the
balance and added to `withdrawn_amount`, only `A − fee` is transferred, and
the native fee ledger is credited with exactly the fee.  No fee is charged on
the sender path (`revert_fee` 0, ledgers untouched) or on `claim`.  The
closed conjuncts check fee rate 25 bps: a 9-unit withdrawal pays fee 0 and
leaves the ledger unchanged, a 10000-unit withdrawal pays fee 25. -/
theorem C8_fee_accounting (c : Contract) (stream_id : Nat) (s : Stream)
    (now te wt : Nat)
    (hget : mapGet c.streams stream_id = some s)
    (hlock : s.locked = false) (hbal : 0 < s.balance) (hcanc : s.is_cancelled = false)
    (hstart : s.start_time < now) (hns : s.receiver ≠ s.sender)
    (helap : receiver_elapsed s now = .ok (te, wt))
    (hpos : 0 < s.rate * te) (hle : s.rate * te ≤ s.balance)
    (hnat : s.is_native = true) (hfr : c.fee_rate ≤ FEE_BPS_DIVISOR) :
    (∃ c' pt, withdraw c s.receiver now 1 stream_id = .ok (c', pt) ∧
      pt.revert_fee = s.rate * te * c.fee_rate / FEE_BPS_DIVISOR ∧
      pt.transfer_amount = s.rate * te - pt.revert_fee ∧
      pt.revert_amount = s.rate * te ∧
      mapGet c'.streams stream_id = some ({ s with
        balance := s.balance - s.rate * te
        withdraw_time := wt
        withdrawn_amount := s.withdrawn_amount + s.rate * te
        locked := true }) ∧
      c'.native_fees = c.native_fees + pt.revert_fee ∧
      c'.accumulated_fees = c.accumulated_fees) ∧
    (∀ now2 owed, s.start_time < now2 → s.end_time < now2 →
      sender_streamed_amount s = .ok owed → owed < s.balance →
      ∃ c' pt, withdraw c s.sender now2 1 stream_id = .ok (c', pt) ∧
      pt.revert_fee = 0 ∧ c'.native_fees = c.native_fees ∧
      c'.accumulated_fees = c.accumulated_fees) ∧
    (∀ s2 id2, mapGet c.streams id2 = some s2 → s2.locked = false →
      s2.is_cancelled = true → 0 < s2.balance →
      ∃ c' pc, claim c s2.sender 1 id2 = .ok (c', pc) ∧
      c'.native_fees = c.native_fees ∧ c'.accumulated_fees = c.accumulated_fees) ∧
    (do
      let (c1, _) ← create_stream baseContract 10 100 10 true true 11 1 100 110 false false
      let (c2, pt) ← withdraw c1 11 109 1 1
      .ok (pt.transfer_amount, pt.revert_fee, c2.native_fees))
      = .ok ((9 : Nat), (0 : Nat), (0 : Nat)) ∧
    (do
      let (c1, _) ← create_stream baseContract 10 100 10000 true true 11 1000 100 110
        false false
      let (c2, pt) ← withdraw c1 11 110 1 1
      .ok (pt.transfer_amount, pt.revert_fee, c2.native_fees))
      = .ok ((9975 : Nat), (25 : Nat), (25 : Nat)) := by
  have hF : 0 < FEE_BPS_DIVISOR := by norm_num [FEE_BPS_DIVISOR]
  have hfee_le : s.rate * te * c.fee_rate / FEE_BPS_DIVISOR ≤ s.rate * te := by
    calc s.rate * te * c.fee_rate / FEE_BPS_DIVISOR
        ≤ s.rate * te * FEE_BPS_DIVISOR / FEE_BPS_DIVISOR :=
          Nat.div_le_div_right (Nat.mul_le_mul_left _ hfr)
      _ = s.rate * te := Nat.mul_div_cancel _ hF
  refine ⟨?_, ?_, ?_, by decide, by decide⟩
  · by_cases hf : 0 < s.rate * te * c.fee_rate / FEE_BPS_DIVISOR
    · simp only [withdraw, getStream, hget, bind_ok, require, hlock, hbal, hcanc, hstart,
        hns, helap, calculate_fee_amount, if_true, if_false, sub_ok hle, sub_ok hfee_le,
        creditFee, hnat, if_pos, hpos, hf]
      simp [require, hns, hstart, hbal, hpos, hf, creditFee, hnat, bind_ok,
        mapGet_mapInsert_self]
      exact ⟨_, _, ⟨rfl, rfl⟩, rfl, rfl, rfl, mapGet_mapInsert_self _ _ _, rfl, rfl⟩
    · have hf0 : s.rate * te * c.fee_rate / FEE_BPS_DIVISOR = 0 :=
        Nat.eq_zero_of_not_pos hf
      simp only [withdraw, getStream, hget, bind_ok, require, hlock, hbal, hcanc, hstart,
        hns, helap, calculate_fee_amount, sub_ok hle]
      simp [require, hns, hstart, hbal, hpos, hf0, bind_ok, mapGet_mapInsert_self]
      exact ⟨_, _, ⟨rfl, rfl⟩, rfl, rfl, rfl, mapGet_mapInsert_self _ _ _, rfl, rfl⟩
  · intro now2 owed hstart2 hend2 hsa hlt
    have h1 : owed ≤ s.balance := Nat.le_of_lt hlt
    have h2 : 0 < s.balance - owed := by omega
    simp [withdraw, require, getStream, hget, hlock, hbal, hcanc, hstart2, hend2, hsa,
      sub_ok h1, h2, sub_ok (Nat.sub_le s.balance owed), bind_ok, bind_error,
      mapGet_mapInsert_self]
    exact ⟨_, _, ⟨rfl, rfl⟩, rfl, rfl, rfl⟩
  · intro s2 id2 hget2 hlock2 hcanc2 hbal2
    simp [claim, require, getStream, hget2, hlock2, hcanc2, hbal2, bind_ok, bind_error]

/-- Concrete running stream (start 100, end 110, rate 1, balance 10) for the
C8 witness. -/
def c8Stream : Stream :=
  { id := 1, sender := 10, receiver := 11, balance := 10, rate := 1, created := 100,
    start_time := 100, end_time := 110, withdraw_time := 100, is_paused := false,
    is_cancelled := false, paused_time := 0, contract_id := 0, can_update := false,
    can_cancel := false, is_native := true, locked := false, paused_amount := 0,
    total_amount := 0, withdrawn_amount := 0 }

/-- Contract holding `c8Stream` under id 1, fee rate 25 bps. -/
def c8Contract : Contract :=
  { current_id := 2, streams := [(1, c8Stream)], fee_rate := 25,
    native_fees := 0, accumulated_fees := [] }

/-- Witness for C8: a 9-unit receiver withdrawal at 25 bps pays fee 0,
transfers all 9 units and leaves the native fee ledger at 0. -/
theorem C8_fee_accounting_witness :
    ∃ c' pt, withdraw c8Contract 11 109 1 1 = .ok (c', pt) ∧
      pt.revert_fee = 0 ∧ pt.transfer_amount = 9 ∧ c'.native_fees = 0 := by
  obtain ⟨⟨c', pt, hw, hfee, htr, hra, hmap, hnf, hacc⟩, hsend, hclaim, h9, h10000⟩ :=
    C8_fee_accounting c8Contract 1 c8Stream 109 9 109 (by decide) (by decide) (by decide)
      (by decide) (by decide) (by decide) (by decide) (by decide) (by decide) (by decide)
      (by decide)
  refine ⟨c', pt, hw, ?_, ?_, ?_⟩
  · rw [hfee]; decide
  · rw [htr, hfee]; decide
  · rw [hnf, hfee]; decide

/-- Full characterization of a successful `withdraw`: the guards that must
have held and the exact post-state of the stream, by caller path. -/
theorem withdraw_ok_cases {c : Contract} {caller now dep stream_id : Nat} {c' : Contract}
    {pt : PendingTransfer} {s : Stream} (hget : mapGet c.streams stream_id = some s)
    (h : withdraw c caller now dep stream_id = .ok (c', pt)) :
    s.locked = false ∧ s.is_cancelled = false ∧ 0 < s.balance ∧ s.start_time < now ∧
    ((caller = s.sender ∧ s.end_time < now ∧
       ∃ owed, sender_streamed_amount s = .ok owed ∧ owed < s.balance ∧
         mapGet c'.streams stream_id = some ({ s with balance := owed, locked := true })) ∨
     (caller ≠ s.sender ∧ caller = s.receiver ∧
       ∃ te wtv, receiver_elapsed s now = .ok (te, wtv) ∧ 0 < s.rate * te ∧
         s.rate * te ≤ s.balance ∧
         mapGet c'.streams stream_id = some ({ s with
           balance := s.balance - s.rate * te
           withdraw_time := wtv
           withdrawn_amount := s.withdrawn_amount + s.rate * te
           locked := true }))) := by
  unfold withdraw at h
  obtain ⟨u1, h1, h⟩ := bind_eq_ok h
  obtain ⟨s0, hs0, h⟩ := bind_eq_ok h
  have hs0' := getStream_eq_ok hs0
  rw [hget] at hs0'
  injection hs0' with hs0'
  subst hs0'
  obtain ⟨u2, h2, h⟩ := bind_eq_ok h
  obtain ⟨u3, h3, h⟩ := bind_eq_ok h
  obtain ⟨u4, h4, h⟩ := bind_eq_ok h
  obtain ⟨u5, h5, h⟩ := bind_eq_ok h
  obtain ⟨u6, h6, h⟩ := bind_eq_ok h
  refine ⟨require_eq_ok h2, require_eq_ok h4, require_eq_ok h3, require_eq_ok h5, ?_⟩
  split at h
  · left
    obtain ⟨u7, h7, h⟩ := bind_eq_ok h
    obtain ⟨wa, hwa, h⟩ := bind_eq_ok h
    obtain ⟨rb, hrb, h⟩ := bind_eq_ok h
    obtain ⟨u8, h8, h⟩ := bind_eq_ok h
    obtain ⟨bal, hbal, h⟩ := bind_eq_ok h
    injection h with h
    injection h with hc hpt
    subst hc
    obtain ⟨hle1, hrb2⟩ := sub_eq_ok hrb
    obtain ⟨hle2, hbal2⟩ := sub_eq_ok hbal
    have hpos := require_eq_ok h8
    refine ⟨by assumption, require_eq_ok h7, wa, hwa, by omega, ?_⟩
    have hwaeq : bal = wa := by omega
    subst hbal2
    rw [show s.balance - rb = wa by omega]
    exact mapGet_mapInsert_self _ _ _
  · right
    obtain ⟨p, helap, h⟩ := bind_eq_ok h
    obtain ⟨te, wtv⟩ := p
    obtain ⟨u7, h7, h⟩ := bind_eq_ok h
    obtain ⟨bal, hbal, h⟩ := bind_eq_ok h
    obtain ⟨hle1, hbal2⟩ := sub_eq_ok hbal
    subst hbal2
    dsimp only at h
    split at h
    · obtain ⟨ta, hta, h⟩ := bind_eq_ok h
      injection h with h
      injection h with hc hpt
      subst hc
      refine ⟨by assumption, require_eq_ok h6 |>.resolve_left (by assumption), te, wtv,
        helap, require_eq_ok h7, hle1, ?_⟩
      rw [(creditFee_streams _ _ _).1]
      exact mapGet_mapInsert_self _ _ _
    · injection h with h
      injection h with hc hpt
      subst hc
      exact ⟨by assumption, require_eq_ok h6 |>.resolve_left (by assumption), te, wtv,
        helap, require_eq_ok h7, hle1, mapGet_mapInsert_self _ _ _⟩

/-- Characterization of a successful `cancel`: the guards that must have held
and the post-state of the stream (paused case versus the zero-payout cases). -/
theorem cancel_ok_cases {c : Contract} {caller now dep stream_id : Nat} {c' : Contract}
    {pc : Option PendingCancel} {s : Stream} (hget : mapGet c.streams stream_id = some s)
    (h : cancel c caller now dep stream_id = .ok (c', pc)) :
    s.locked = false ∧ s.can_cancel = true ∧ caller = s.sender ∧ now < s.end_time ∧
    s.is_cancelled = false ∧
    ∃ s', mapGet c'.streams stream_id = some s' ∧ s'.is_cancelled = true ∧
      s'.start_time = s.start_time ∧ s'.end_time = s.end_time ∧
      (s.is_paused = true → s.start_time ≤ now →
        (now ≤ s.paused_time ∧ s'.withdraw_time = s.paused_time ∧
         (s.paused_time - now) * s.rate ≤ s.balance ∧
         s'.balance = s.balance - (s.paused_time - now) * s.rate ∧
         s'.withdrawn_amount = s.withdrawn_amount + (s.paused_time - now) * s.rate)) ∧
      (¬(s.is_paused = true ∧ s.start_time ≤ now) →
        (s'.withdraw_time = now ∧ s'.balance = s.balance ∧
         s'.withdrawn_amount = s.withdrawn_amount ∧ s'.locked = false ∧ pc = none)) ∧
      s'.balance ≤ s.balance := by
  unfold cancel at h
  obtain ⟨u1, h1, h⟩ := bind_eq_ok h
  obtain ⟨s0, hs0, h⟩ := bind_eq_ok h
  have hs0' := getStream_eq_ok hs0
  rw [hget] at hs0'
  injection hs0' with hs0'
  subst hs0'
  obtain ⟨u2, h2, h⟩ := bind_eq_ok h
  obtain ⟨u3, h3, h⟩ := bind_eq_ok h
  obtain ⟨u4, h4, h⟩ := bind_eq_ok h
  obtain ⟨u5, h5, h⟩ := bind_eq_ok h
  obtain ⟨u6, h6, h⟩ := bind_eq_ok h
  have hlock := require_eq_ok h2
  have hcanc := require_eq_ok h6
  refine ⟨hlock, require_eq_ok h3, require_eq_ok h4, require_eq_ok h5, hcanc, ?_⟩
  try dsimp only at h
  split at h
  · -- cancelled before start: receiver_amt = 0
    rename_i hbefore
    have hbefore2 : now < s.start_time := by simpa using hbefore
    simp [sub?, bind_ok] at h
    obtain ⟨hc, hpc⟩ := h
    subst hc
    subst hpc
    refine ⟨_, mapGet_mapInsert_self _ _ _, rfl, rfl, rfl, ?_, ?_, by simp⟩
    · intro _ habs
      exact absurd habs (Nat.not_le.mpr hbefore2)
    · intro _
      exact ⟨rfl, by simp, by simp, by simpa using hlock, rfl⟩
  · split at h
    · -- currently paused: receiver_amt = (paused_time - now) * rate
      rename_i hafter hpaused
      have hpaused2 : s.is_paused = true := by simpa using hpaused
      have hafter2 : ¬ now < s.start_time := by simpa using hafter
      obtain ⟨d, hd, h⟩ := bind_eq_ok h
      try dsimp only at hd
      obtain ⟨hdle, hdeq⟩ := sub_eq_ok hd
      subst hdeq
      simp only [bind_ok] at h
      try dsimp only at h
      obtain ⟨bal, hb, h⟩ := bind_eq_ok h
      try dsimp only at hb
      obtain ⟨hble, hbeq⟩ := sub_eq_ok hb
      subst hbeq
      split at h
      · -- receiver_amt = 0 sub-case
        rename_i hra0
        have hra02 : (s.paused_time - now) * s.rate = 0 := by simpa using hra0
        have hra0lt : ¬ (s.paused_time - now) * s.rate > 0 := by simp [hra02]
        injection h with h
        injection h with hc hpc
        subst hc
        rw [if_neg hra0lt]
        refine ⟨_, mapGet_mapInsert_self _ _ _, rfl, rfl, rfl, ?_, ?_, Nat.sub_le _ _⟩
        · intro hpt hst
          exact ⟨hdle, rfl, hble, rfl, rfl⟩
        · intro habs
          exact absurd ⟨hpaused2, Nat.le_of_not_lt hafter2⟩ habs
      · -- receiver_amt > 0 sub-case: lock and start a transfer (maybe with fee)
        rename_i hra
        have hra2 : (s.paused_time - now) * s.rate ≠ 0 := by simpa using hra
        have hralt : (s.paused_time - now) * s.rate > 0 := Nat.pos_of_ne_zero hra2
        rw [if_pos hralt] at h
        try dsimp only at h
        split at h
        · obtain ⟨ta, hta, h⟩ := bind_eq_ok h
          injection h with h
          injection h with hc hpc
          subst hc
          rw [(creditFee_streams _ _ _).1]
          refine ⟨_, mapGet_mapInsert_self _ _ _, rfl, rfl, rfl, ?_, ?_, Nat.sub_le _ _⟩
          · intro hpt hst
            exact ⟨hdle, rfl, hble, rfl, rfl⟩
          · intro habs
            exact absurd ⟨hpaused2, Nat.le_of_not_lt hafter2⟩ habs
        · injection h with h
          injection h with hc hpc
          subst hc
          refine ⟨_, mapGet_mapInsert_self _ _ _, rfl, rfl, rfl, ?_, ?_, Nat.sub_le _ _⟩
          · intro hpt hst
            exact ⟨hdle, rfl, hble, rfl, rfl⟩
          · intro habs
            exact absurd ⟨hpaused2, Nat.le_of_not_lt hafter2⟩ habs
    · -- started, not paused: receiver_amt = (now - now) * rate = 0
      rename_i hafter hnp
      have hnp2 : ¬ s.is_paused = true := by simpa using hnp
      have hafter2 : ¬ now < s.start_time := by simpa using hafter
      obtain ⟨d, hd, h⟩ := bind_eq_ok h
      try dsimp only at hd
      obtain ⟨hdle, hdeq⟩ := sub_eq_ok hd
      subst hdeq
      simp [sub?, bind_ok, Nat.sub_self] at h
      obtain ⟨hc, hpc⟩ := h
      subst hc
      subst hpc
      refine ⟨_, mapGet_mapInsert_self _ _ _, rfl, rfl, rfl, ?_, ?_, by simp⟩
      · intro hpt _
        exact absurd hpt hnp2
      · intro _
        exact ⟨rfl, by simp, by simp, by simpa using hlock, rfl⟩

/-- Characterization of a successful `pause`. -/
theorem pause_ok_cases {c : Contract} {caller now stream_id : Nat} {c' : Contract}
    {s : Stream} (hget : mapGet c.streams stream_id = some s)
    (h : pause c caller now stream_id = .ok c') :
    s.locked = false ∧ caller = s.sender ∧ s.is_cancelled = false ∧ s.is_paused = false ∧
    s.start_time < now ∧ now < s.end_time ∧
    mapGet c'.streams stream_id = some ({ s with is_paused := true, paused_time := now }) := by
  unfold pause at h
  obtain ⟨s0, hs0, h⟩ := bind_eq_ok h
  have hs0' := getStream_eq_ok hs0
  rw [hget] at hs0'
  injection hs0' with hs0'
  subst hs0'
  obtain ⟨u1, h1, h⟩ := bind_eq_ok h
  obtain ⟨u2, h2, h⟩ := bind_eq_ok h
  obtain ⟨u3, h3, h⟩ := bind_eq_ok h
  obtain ⟨u4, h4, h⟩ := bind_eq_ok h
  obtain ⟨u5, h5, h⟩ := bind_eq_ok h
  injection h with h
  subst h
  obtain ⟨hw1, hw2⟩ := require_eq_ok h5
  exact ⟨require_eq_ok h1, require_eq_ok h2, require_eq_ok h3, require_eq_ok h4,
    hw1, hw2, mapGet_mapInsert_self _ _ _⟩

/-- Characterization of a successful `resume`: the withdraw boundary advances
by the paused interval, clamped at `end_time`. -/
theorem resume_ok_cases {c : Contract} {caller now stream_id : Nat} {c' : Contract}
    {s : Stream} (hget : mapGet c.streams stream_id = some s)
    (h : resume c caller now stream_id = .ok c') :
    s.locked = false ∧ caller = s.sender ∧ s.is_paused = true ∧ s.is_cancelled = false ∧
    ((s.end_time < now ∧ s.paused_time ≤ s.end_time ∧
       mapGet c'.streams stream_id = some ({ s with
         is_paused := false
         withdraw_time := s.withdraw_time + (s.end_time - s.paused_time)
         paused_amount := s.paused_amount + (s.end_time - s.paused_time) * s.rate
         paused_time := 0 })) ∨
     (now ≤ s.end_time ∧ s.paused_time ≤ now ∧
       mapGet c'.streams stream_id = some ({ s with
         is_paused := false
         withdraw_time := s.withdraw_time + (now - s.paused_time)
         paused_amount := s.paused_amount + (now - s.paused_time) * s.rate
         paused_time := 0 }))) := by
  unfold resume at h
  obtain ⟨s0, hs0, h⟩ := bind_eq_ok h
  have hs0' := getStream_eq_ok hs0
  rw [hget] at hs0'
  injection hs0' with hs0'
  subst hs0'
  obtain ⟨u1, h1, h⟩ := bind_eq_ok h
  obtain ⟨u2, h2, h⟩ := bind_eq_ok h
  obtain ⟨u3, h3, h⟩ := bind_eq_ok h
  obtain ⟨u4, h4, h⟩ := bind_eq_ok h
  refine ⟨require_eq_ok h1, require_eq_ok h2, require_eq_ok h3, require_eq_ok h4, ?_⟩
  try dsimp only at h
  split at h
  · left
    rename_i hend
    have hend2 : s.end_time < now := by simpa using hend
    obtain ⟨d, hd, h⟩ := bind_eq_ok h
    try dsimp only at hd
    obtain ⟨hdle, hdeq⟩ := sub_eq_ok hd
    subst hdeq
    simp only [bind_ok] at h
    try dsimp only at h
    injection h with h
    subst h
    exact ⟨hend2, hdle, mapGet_mapInsert_self _ _ _⟩
  · right
    rename_i hend
    have hend2 : now ≤ s.end_time := by
      have := hend
      simp only [Nat.not_lt] at this
      simpa using this
    obtain ⟨d, hd, h⟩ := bind_eq_ok h
    try dsimp only at hd
    obtain ⟨hdle, hdeq⟩ := sub_eq_ok hd
    subst hdeq
    simp only [bind_ok] at h
    try dsimp only at h
    injection h with h
    subst h
    exact ⟨hend2, hdle, mapGet_mapInsert_self _ _ _⟩

/-- Characterization of a successful `claim`. -/
theorem claim_ok_cases {c : Contract} {caller dep stream_id : Nat} {c' : Contract}
    {pcl : PendingClaim} {s : Stream} (hget : mapGet c.streams stream_id = some s)
    (h : claim c caller dep stream_id = .ok (c', pcl)) :
    dep = 1 ∧ s.locked = false ∧ s.sender = caller ∧ s.is_cancelled = true ∧
    0 < s.balance ∧
    mapGet c'.streams stream_id = some ({ s with balance := 0, locked := true }) ∧
    pcl.transfer_amount = s.balance ∧ pcl.revert_amount = s.balance ∧
    c'.native_fees = c.native_fees ∧ c'.accumulated_fees = c.accumulated_fees := by
  unfold claim at h
  obtain ⟨u1, h1, h⟩ := bind_eq_ok h
  obtain ⟨s0, hs0, h⟩ := bind_eq_ok h
  have hs0' := getStream_eq_ok hs0
  rw [hget] at hs0'
  injection hs0' with hs0'
  subst hs0'
  obtain ⟨u2, h2, h⟩ := bind_eq_ok h
  obtain ⟨u3, h3, h⟩ := bind_eq_ok h
  obtain ⟨u4, h4, h⟩ := bind_eq_ok h
  obtain ⟨u5, h5, h⟩ := bind_eq_ok h
  injection h with h
  injection h with hc hpt
  subst hc
  subst hpt
  exact ⟨require_eq_ok h1, require_eq_ok h2, require_eq_ok h3, require_eq_ok h4,
    require_eq_ok h5, mapGet_mapInsert_self _ _ _, rfl, rfl, rfl, rfl⟩

/-- Balance and boundary facts of a successful `update`: the new stream has
`withdraw_time = start_time < end_time`, and the balance either gained the
whole attached deposit (top-up case) or is unchanged. -/
theorem update_ok_cases {c : Contract} {caller now dep stream_id : Nat}
    {st en : Option Nat} {rt : Option Nat} {c' : Contract} {s : Stream}
    (hget : mapGet c.streams stream_id = some s)
    (h : update c caller now dep stream_id st en rt = .ok c') :
    ∃ s', mapGet c'.streams stream_id = some s' ∧
      (s'.balance = s.balance + dep ∨ s'.balance = s.balance) ∧
      s'.withdraw_time = s'.start_time ∧ s'.start_time < s'.end_time ∧
      s'.locked = s.locked := by
  unfold update at h
  obtain ⟨s0, hs0, h⟩ := bind_eq_ok h
  have hs0' := getStream_eq_ok hs0
  rw [hget] at hs0'
  injection hs0' with hs0'
  subst hs0'
  obtain ⟨u1, h1, h⟩ := bind_eq_ok h
  obtain ⟨u2, h2, h⟩ := bind_eq_ok h
  obtain ⟨u3, h3, h⟩ := bind_eq_ok h
  obtain ⟨u4, h4, h⟩ := bind_eq_ok h
  obtain ⟨u5, h5, h⟩ := bind_eq_ok h
  obtain ⟨u6, h6, h⟩ := bind_eq_ok h
  obtain ⟨u7, h7, h⟩ := bind_eq_ok h
  have hlt := require_eq_ok h7
  try dsimp only at h
  split at h
  · obtain ⟨u8, h8, h⟩ := bind_eq_ok h
    try dsimp only at h
    obtain ⟨u9, h9, h⟩ := bind_eq_ok h
    obtain ⟨u10, h10, h⟩ := bind_eq_ok h
    obtain ⟨d, hd, h⟩ := bind_eq_ok h
    try dsimp only at hd
    obtain ⟨hdle, hdeq⟩ := sub_eq_ok hd
    subst hdeq
    try dsimp only at h
    split at h
    · obtain ⟨sh, hsh, h⟩ := bind_eq_ok h
      obtain ⟨u11, h11, h⟩ := bind_eq_ok h
      try simp only [bind_ok] at h
      injection h with h
      subst h
      exact ⟨_, mapGet_mapInsert_self _ _ _, Or.inl rfl, rfl, by simpa using hlt, rfl⟩
    · obtain ⟨u11, h11, h⟩ := bind_eq_ok h
      try simp only [bind_ok] at h
      injection h with h
      subst h
      exact ⟨_, mapGet_mapInsert_self _ _ _, Or.inr rfl, rfl, by simpa using hlt, rfl⟩
  · simp only [pure, Except.pure, bind_ok] at h
    try dsimp only at h
    obtain ⟨u9, h9, h⟩ := bind_eq_ok h
    obtain ⟨u10, h10, h⟩ := bind_eq_ok h
    obtain ⟨d, hd, h⟩ := bind_eq_ok h
    try dsimp only at hd
    obtain ⟨hdle, hdeq⟩ := sub_eq_ok hd
    subst hdeq
    try dsimp only at h
    split at h
    · obtain ⟨sh, hsh, h⟩ := bind_eq_ok h
      obtain ⟨u11, h11, h⟩ := bind_eq_ok h
      try simp only [bind_ok] at h
      injection h with h
      subst h
      exact ⟨_, mapGet_mapInsert_self _ _ _, Or.inl rfl, rfl, by simpa using hlt, rfl⟩
    · obtain ⟨u11, h11, h⟩ := bind_eq_ok h
      try simp only [bind_ok] at h
      injection h with h
      subst h
      exact ⟨_, mapGet_mapInsert_self _ _ _, Or.inr rfl, rfl, by simpa using hlt, rfl⟩

/-- Characterization of the resolve callbacks on the stored stream. -/
theorem resolve_withdraw_ok_cases {c : Contract} {stream_id wa wt fa : Nat} {res : Bool}
    {c' : Contract} {b : Bool} {s : Stream} (hget : mapGet c.streams stream_id = some s)
    (h : internal_resolve_withdraw_stream c stream_id wa wt fa res = .ok (c', b)) :
    ∃ s', mapGet c'.streams stream_id = some s' ∧ s'.locked = false ∧
      s'.start_time = s.start_time ∧ s'.end_time = s.end_time ∧
      (res = true → s'.balance = s.balance ∧ s'.withdraw_time = s.withdraw_time) ∧
      (res = false → s'.balance = s.balance + wa ∧
        s'.withdraw_time = (if wt < s.withdraw_time then wt else s.withdraw_time)) := by
  unfold internal_resolve_withdraw_stream at h
  obtain ⟨s0, hs0, h⟩ := bind_eq_ok h
  have hs0' := getStream_eq_ok hs0
  rw [hget] at hs0'
  injection hs0' with hs0'
  subst hs0'
  cases res with
  | true =>
      simp only [if_true] at h
      injection h with h
      injection h with hc hb
      subst hc
      exact ⟨_, mapGet_mapInsert_self _ _ _, rfl, rfl, rfl,
        fun _ => ⟨rfl, rfl⟩, fun hf => absurd hf (by simp)⟩
  | false =>
      simp only [Bool.false_eq_true, if_false] at h
      obtain ⟨c1, hdf, h⟩ := bind_eq_ok h
      injection h with h
      injection h with hc hb
      subst hc
      refine ⟨_, mapGet_mapInsert_self _ _ _, ?_, ?_, ?_, fun ht => absurd ht (by simp),
        fun _ => ⟨?_, ?_⟩⟩
      · split <;> rfl
      · split <;> rfl
      · split <;> rfl
      · split <;> rfl
      · split <;> rfl

/-- The cancel resolve callback restores exactly the passed amount on failure
and never touches `withdraw_time`. -/
theorem resolve_cancel_ok_cases {c : Contract} {stream_id wa fa : Nat} {res : Bool}
    {c' : Contract} {b : Bool} {s : Stream}
    (hget : mapGet c.streams stream_id = some s)
    (h : internal_resolve_cancel_stream c stream_id wa fa res = .ok (c', b)) :
    ∃ s', mapGet c'.streams stream_id = some s' ∧ s'.locked = false ∧
      s'.withdraw_time = s.withdraw_time ∧ s'.start_time = s.start_time ∧
      s'.end_time = s.end_time ∧ s'.balance ≤ s.balance + wa := by
  unfold internal_resolve_cancel_stream at h
  obtain ⟨s0, hs0, h⟩ := bind_eq_ok h
  have hs0' := getStream_eq_ok hs0
  rw [hget] at hs0'
  injection hs0' with hs0'
  subst hs0'
  cases res with
  | true =>
      simp only [if_true] at h
      injection h with h
      injection h with hc hb
      subst hc
      exact ⟨_, mapGet_mapInsert_self _ _ _, rfl, rfl, rfl, rfl, Nat.le_add_right _ _⟩
  | false =>
      simp only [Bool.false_eq_true, if_false] at h
      obtain ⟨c1, hdf, h⟩ := bind_eq_ok h
      injection h with h
      injection h with hc hb
      subst hc
      exact ⟨_, mapGet_mapInsert_self _ _ _, rfl, rfl, rfl, rfl, Nat.le_refl _⟩

/-- The claim resolve callback restores exactly the passed amount on failure
and never touches `withdraw_time`. -/
theorem resolve_claim_ok_cases {c : Contract} {stream_id wa : Nat} {res : Bool}
    {c' : Contract} {b : Bool} {s : Stream}
    (hget : mapGet c.streams stream_id = some s)
    (h : internal_resolve_claim_stream c stream_id wa res = .ok (c', b)) :
    ∃ s', mapGet c'.streams stream_id = some s' ∧ s'.locked = false ∧
      s'.withdraw_time = s.withdraw_time ∧ s'.start_time = s.start_time ∧
      s'.end_time = s.end_time ∧ s'.balance ≤ s.balance + wa := by
  unfold internal_resolve_claim_stream at h
  obtain ⟨s0, hs0, h⟩ := bind_eq_ok h
  have hs0' := getStream_eq_ok hs0
  rw [hget] at hs0'
  injection hs0' with hs0'
  subst hs0'
  cases res with
  | true =>
      simp only [if_true] at h
      injection h with h
      injection h with hc hb
      subst hc
      exact ⟨_, mapGet_mapInsert_self _ _ _, rfl, rfl, rfl, rfl, Nat.le_add_right _ _⟩
  | false =>
      simp only [Bool.false_eq_true, if_false] at h
      injection h with h
      injection h with hc hb
      subst hc
      exact ⟨_, mapGet_mapInsert_self _ _ _, rfl, rfl, rfl, rfl, Nat.le_refl _⟩

/-- C7 amended: `balance` is a machine natural (never negative), no operation
subtracts more than the current balance (checked subtraction aborts instead),
and balance is non-increasing under every lifecycle operation except `update`
(which adds at most the whole attached deposit) and the failure branches of
the resolution callbacks (which add back exactly the revert amount passed by
the initiating call). -/
theorem C7_amended_balance_bounds (c : Contract) (stream_id : Nat) (s : Stream)
    (hget : mapGet c.streams stream_id = some s) :
    (∀ caller now dep c' pt, withdraw c caller now dep stream_id = .ok (c', pt) →
      ∃ s', mapGet c'.streams stream_id = some s' ∧ s'.balance ≤ s.balance) ∧
    (∀ caller now c', pause c caller now stream_id = .ok c' →
      ∃ s', mapGet c'.streams stream_id = some s' ∧ s'.balance = s.balance) ∧
    (∀ caller now c', resume c caller now stream_id = .ok c' →
      ∃ s', mapGet c'.streams stream_id = some s' ∧ s'.balance = s.balance) ∧
    (∀ caller now dep c' pc, cancel c caller now dep stream_id = .ok (c', pc) →
      ∃ s', mapGet c'.streams stream_id = some s' ∧ s'.balance ≤ s.balance) ∧
    (∀ caller dep c' pcl, claim c caller dep stream_id = .ok (c', pcl) →
      ∃ s', mapGet c'.streams stream_id = some s' ∧ s'.balance = 0) ∧
    (∀ caller now dep st en rt c', update c caller now dep stream_id st en rt = .ok c' →
      ∃ s', mapGet c'.streams stream_id = some s' ∧ s'.balance ≤ s.balance + dep) ∧
    (∀ wa wt fa res c' b,
      internal_resolve_withdraw_stream c stream_id wa wt fa res = .ok (c', b) →
      ∃ s', mapGet c'.streams stream_id = some s' ∧ s'.balance ≤ s.balance + wa) ∧
    (∀ wa fa res c' b,
      internal_resolve_cancel_stream c stream_id wa fa res = .ok (c', b) →
      ∃ s', mapGet c'.streams stream_id = some s' ∧ s'.balance ≤ s.balance + wa) ∧
    (∀ wa res c' b,
      internal_resolve_claim_stream c stream_id wa res = .ok (c', b) →
      ∃ s', mapGet c'.streams stream_id = some s' ∧ s'.balance ≤ s.balance + wa) := by
  refine ⟨?_, ?_, ?_, ?_, ?_, ?_, ?_, ?_, ?_⟩
  · intro caller now dep c' pt h
    obtain ⟨_, _, _, _, hcase⟩ := withdraw_ok_cases hget h
    rcases hcase with ⟨_, _, owed, _, hlt, hmap⟩ | ⟨_, _, te, wtv, _, _, hle, hmap⟩
    · exact ⟨_, hmap, Nat.le_of_lt hlt⟩
    · exact ⟨_, hmap, Nat.sub_le _ _⟩
  · intro caller now c' h
    obtain ⟨_, _, _, _, _, _, hmap⟩ := pause_ok_cases hget h
    exact ⟨_, hmap, rfl⟩
  · intro caller now c' h
    obtain ⟨_, _, _, _, hcase⟩ := resume_ok_cases hget h
    rcases hcase with ⟨_, _, hmap⟩ | ⟨_, _, hmap⟩ <;> exact ⟨_, hmap, rfl⟩
  · intro caller now dep c' pc h
    obtain ⟨_, _, _, _, _, s', hmap, _, _, _, _, _, hble⟩ := cancel_ok_cases hget h
    exact ⟨s', hmap, hble⟩
  · intro caller dep c' pcl h
    obtain ⟨_, _, _, _, _, hmap, _⟩ := claim_ok_cases hget h
    exact ⟨_, hmap, rfl⟩
  · intro caller now dep st en rt c' h
    obtain ⟨s', hmap, hbal, _⟩ := update_ok_cases hget h
    rcases hbal with hb | hb
    · exact ⟨s', hmap, Nat.le_of_eq hb⟩
    · exact ⟨s', hmap, by omega⟩
  · intro wa wt fa res c' b h
    obtain ⟨s', hmap, _, _, _, ht, hf⟩ := resolve_withdraw_ok_cases hget h
    cases res with
    | false =>
        obtain ⟨hb, _⟩ := hf rfl
        exact ⟨s', hmap, Nat.le_of_eq hb⟩
    | true =>
        obtain ⟨hb, _⟩ := ht rfl
        exact ⟨s', hmap, by omega⟩
  · intro wa fa res c' b h
    obtain ⟨s', hmap, _, _, _, _, hble⟩ := resolve_cancel_ok_cases hget h
    exact ⟨s', hmap, hble⟩
  · intro wa res c' b h
    obtain ⟨s', hmap, _, _, _, _, hble⟩ := resolve_claim_ok_cases hget h
    exact ⟨s', hmap, hble⟩

/-- Witness for the amended C7: the concrete receiver withdrawal of 5 on a
balance of 10 leaves balance 5 ≤ 10. -/
theorem C7_amended_balance_bounds_witness :
    ∃ c' pt, withdraw c8Contract 11 105 1 1 = .ok (c', pt) ∧
      ∃ s', mapGet c'.streams 1 = some s' ∧ s'.balance ≤ c8Stream.balance := by
  obtain ⟨s', hmap, hble⟩ :=
    (C7_amended_balance_bounds c8Contract 1 c8Stream (by decide)).1 11 105 1 _ _ rfl
  exact ⟨_, _, rfl, s', hmap, hble⟩

/-- Characterization of the receiver-path elapsed-time computation. -/
theorem receiver_elapsed_ok_cases {s : Stream} {now te wtv : Nat}
    (h : receiver_elapsed s now = .ok (te, wtv)) :
    (s.end_time ≤ now ∧ s.withdraw_time < s.end_time ∧ wtv = now) ∨
    (now < s.end_time ∧ s.is_paused = true ∧ wtv = s.paused_time ∧
      s.withdraw_time ≤ s.paused_time) ∨
    (now < s.end_time ∧ s.is_paused = false ∧ wtv = now ∧ s.withdraw_time ≤ now) := by
  unfold receiver_elapsed at h
  split at h
  · rename_i hend
    obtain ⟨u1, h1, h⟩ := bind_eq_ok h
    split at h
    · obtain ⟨d, hd, h⟩ := bind_eq_ok h
      injection h with h
      injection h with h1' h2'
      exact Or.inl ⟨hend, require_eq_ok h1, h2'.symm⟩
    · obtain ⟨d, hd, h⟩ := bind_eq_ok h
      injection h with h
      injection h with h1' h2'
      exact Or.inl ⟨hend, require_eq_ok h1, h2'.symm⟩
  · split at h
    · rename_i hend hpau
      have hlt : now < s.end_time := by omega
      obtain ⟨d, hd, h⟩ := bind_eq_ok h
      obtain ⟨hdle, _⟩ := sub_eq_ok hd
      injection h with h
      injection h with h1' h2'
      exact Or.inr (Or.inl ⟨hlt, hpau, h2'.symm, hdle⟩)
    · rename_i hend hpau
      have hlt : now < s.end_time := by omega
      obtain ⟨d, hd, h⟩ := bind_eq_ok h
      obtain ⟨hdle, _⟩ := sub_eq_ok hd
      injection h with h
      injection h with h1' h2'
      refine Or.inr (Or.inr ⟨hlt, ?_, h2'.symm, hdle⟩)
      cases hib : s.is_paused
      · rfl
      · exact absurd hib hpau

/-- C4 amended: for a stream satisfying the pause-consistency side conditions,
`start_time ≤ withdraw_time ≤ end_time` is preserved by pause, resume, claim,
update, the cancel of a started stream, the resolution callbacks (given a
revert boundary not before `start_time`), and a withdraw that is either on
the sender path or happens before `end_time`.  The two excluded cases
(receiver withdraw at `now ≥ end_time`, cancel before `start_time`) are the
violations exhibited by the counterexample. -/
theorem C4_amended_withdraw_time_bounds (c : Contract) (stream_id : Nat) (s : Stream)
    (hget : mapGet c.streams stream_id = some s)
    (hs1 : s.start_time ≤ s.withdraw_time) (hs2 : s.withdraw_time ≤ s.end_time)
    (hp : s.is_paused = true →
      s.start_time ≤ s.paused_time ∧ s.paused_time ≤ s.end_time ∧
      s.withdraw_time ≤ s.paused_time) :
    (∀ caller now dep c' pt, withdraw c caller now dep stream_id = .ok (c', pt) →
      (caller = s.sender ∨ now < s.end_time) →
      ∃ s', mapGet c'.streams stream_id = some s' ∧
        s'.start_time ≤ s'.withdraw_time ∧ s'.withdraw_time ≤ s'.end_time) ∧
    (∀ caller now c', pause c caller now stream_id = .ok c' →
      ∃ s', mapGet c'.streams stream_id = some s' ∧
        s'.start_time ≤ s'.withdraw_time ∧ s'.withdraw_time ≤ s'.end_time) ∧
    (∀ caller now c', resume c caller now stream_id = .ok c' →
      ∃ s', mapGet c'.streams stream_id = some s' ∧
        s'.start_time ≤ s'.withdraw_time ∧ s'.withdraw_time ≤ s'.end_time) ∧
    (∀ caller now dep c' pc, cancel c caller now dep stream_id = .ok (c', pc) →
      s.start_time ≤ now →
      ∃ s', mapGet c'.streams stream_id = some s' ∧
        s'.start_time ≤ s'.withdraw_time ∧ s'.withdraw_time ≤ s'.end_time) ∧
    (∀ caller dep c' pcl, claim c caller dep stream_id = .ok (c', pcl) →
      ∃ s', mapGet c'.streams stream_id = some s' ∧
        s'.start_time ≤ s'.withdraw_time ∧ s'.withdraw_time ≤ s'.end_time) ∧
    (∀ caller now dep st en rt c', update c caller now dep stream_id st en rt = .ok c' →
      ∃ s', mapGet c'.streams stream_id = some s' ∧
        s'.start_time ≤ s'.withdraw_time ∧ s'.withdraw_time ≤ s'.end_time) ∧
    (∀ wa wt fa res c' b,
      internal_resolve_withdraw_stream c stream_id wa wt fa res = .ok (c', b) →
      s.start_time ≤ wt →
      ∃ s', mapGet c'.streams stream_id = some s' ∧
        s'.start_time ≤ s'.withdraw_time ∧ s'.withdraw_time ≤ s'.end_time) ∧
    (∀ wa fa res c' b,
      internal_resolve_cancel_stream c stream_id wa fa res = .ok (c', b) →
      ∃ s', mapGet c'.streams stream_id = some s' ∧
        s'.start_time ≤ s'.withdraw_time ∧ s'.withdraw_time ≤ s'.end_time) ∧
    (∀ wa res c' b,
      internal_resolve_claim_stream c stream_id wa res = .ok (c', b) →
      ∃ s', mapGet c'.streams stream_id = some s' ∧
        s'.start_time ≤ s'.withdraw_time ∧ s'.withdraw_time ≤ s'.end_time) := by
  refine ⟨?_, ?_, ?_, ?_, ?_, ?_, ?_, ?_, ?_⟩
  · intro caller now dep c' pt h hside
    obtain ⟨_, _, _, hstart, hcase⟩ := withdraw_ok_cases hget h
    rcases hcase with ⟨_, _, owed, _, _, hmap⟩ | ⟨hnsend, _, te, wtv, helap, _, _, hmap⟩
    · exact ⟨_, hmap, hs1, hs2⟩
    · have hend : now < s.end_time := hside.resolve_left hnsend
      rcases receiver_elapsed_ok_cases helap with ⟨h1, _, _⟩ |
        ⟨_, hpau, hwtv, _⟩ | ⟨_, _, hwtv, _⟩
      · omega
      · subst hwtv
        obtain ⟨hp1, hp2, _⟩ := hp hpau
        exact ⟨_, hmap, hp1, hp2⟩
      · subst hwtv
        exact ⟨_, hmap, Nat.le_of_lt hstart, Nat.le_of_lt hend⟩
  · intro caller now c' h
    obtain ⟨_, _, _, _, _, _, hmap⟩ := pause_ok_cases hget h
    exact ⟨_, hmap, hs1, hs2⟩
  · intro caller now c' h
    obtain ⟨_, _, hpau, _, hcase⟩ := resume_ok_cases hget h
    obtain ⟨hp1, hp2, hp3⟩ := hp hpau
    rcases hcase with ⟨hlt, hle, hmap⟩ | ⟨hle, hge, hmap⟩
    · refine ⟨_, hmap, ?_, ?_⟩
      · exact Nat.le_trans hs1 (Nat.le_add_right _ _)
      · show s.withdraw_time + (s.end_time - s.paused_time) ≤ s.end_time
        omega
    · refine ⟨_, hmap, ?_, ?_⟩
      · exact Nat.le_trans hs1 (Nat.le_add_right _ _)
      · show s.withdraw_time + (now - s.paused_time) ≤ s.end_time
        omega
  · intro caller now dep c' pc h hnow
    obtain ⟨_, _, _, hend, _, s', hmap, _, hst, het, himp1, himp2, _⟩ :=
      cancel_ok_cases hget h
    cases hib : s.is_paused
    · obtain ⟨hw, _, _, _, _⟩ := himp2 (by simp [hib])
      refine ⟨s', hmap, ?_, ?_⟩ <;> omega
    · obtain ⟨_, hw, _, _, _⟩ := himp1 hib hnow
      obtain ⟨hp1, hp2, _⟩ := hp hib
      refine ⟨s', hmap, ?_, ?_⟩ <;> omega
  · intro caller dep c' pcl h
    obtain ⟨_, _, _, _, _, hmap, _⟩ := claim_ok_cases hget h
    exact ⟨_, hmap, hs1, hs2⟩
  · intro caller now dep st en rt c' h
    obtain ⟨s', hmap, _, hwt, hlt, _⟩ := update_ok_cases hget h
    exact ⟨s', hmap, Nat.le_of_eq hwt.symm, by omega⟩
  · intro wa wt fa res c' b h hwt
    obtain ⟨s', hmap, _, hst, het, ht, hf⟩ := resolve_withdraw_ok_cases hget h
    cases res with
    | true =>
        obtain ⟨_, hw⟩ := ht rfl
        refine ⟨s', hmap, ?_, ?_⟩ <;> omega
    | false =>
        obtain ⟨_, hw⟩ := hf rfl
        by_cases hc : wt < s.withdraw_time
        · rw [if_pos hc] at hw
          refine ⟨s', hmap, ?_, ?_⟩ <;> omega
        · rw [if_neg hc] at hw
          refine ⟨s', hmap, ?_, ?_⟩ <;> omega
  · intro wa fa res c' b h
    obtain ⟨s', hmap, _, hw, hst, het, _⟩ := resolve_cancel_ok_cases hget h
    refine ⟨s', hmap, ?_, ?_⟩ <;> omega
  · intro wa res c' b h
    obtain ⟨s', hmap, _, hw, hst, het, _⟩ := resolve_claim_ok_cases hget h
    refine ⟨s', hmap, ?_, ?_⟩ <;> omega

/-- Witness for the amended C4: pausing the concrete running stream at 105
keeps `start_time ≤ withdraw_time ≤ end_time`. -/
theorem C4_amended_withdraw_time_bounds_witness :
    ∃ c', pause c8Contract 10 105 1 = .ok c' ∧
      ∃ s', mapGet c'.streams 1 = some s' ∧
        s'.start_time ≤ s'.withdraw_time ∧ s'.withdraw_time ≤ s'.end_time := by
  obtain ⟨s', hmap, h1, h2⟩ :=
    (C4_amended_withdraw_time_bounds c8Contract 1 c8Stream (by decide) (by decide)
      (by decide) (by decide)).2.1 10 105 _ rfl
  exact ⟨_, rfl, s', hmap, h1, h2⟩

/-- Total length of the paused intervals of a pause/resume schedule
`[(p₁, r₁), …]` (pause at `pᵢ`, resume at `rᵢ`). -/
def pausedSum : List (Nat × Nat) → Nat
  | [] => 0
  | (p, r) :: rest => (r - p) + pausedSum rest

/-- Sequential application of `pause` at `p` and `resume` at `r` for each
pair of the schedule, through the contract entry points. -/
def applyPauses (c : Contract) (caller : Nat) (stream_id : Nat) :
    List (Nat × Nat) → Except String Contract
  | [] => .ok c
  | (p, r) :: rest => do
      let c1 ← pause c caller p stream_id
      let c2 ← resume c1 caller r stream_id
      applyPauses c2 caller stream_id rest

/-- Time-ordering of a pause/resume schedule relative to the stream window:
each pause lies strictly inside `(start_time, end_time)`, its resume comes at
or after it and not after `end_time`, and the accumulated withdraw boundary
stays at or before the next pause. -/
def ChainOK (startT endT : Nat) : Nat → List (Nat × Nat) → Prop
  | _, [] => True
  | w, (p, r) :: rest =>
      startT < p ∧ p < endT ∧ w ≤ p ∧ p ≤ r ∧ r ≤ endT ∧
      ChainOK startT endT (w + (r - p)) rest

theorem chainOK_le {startT endT : Nat} : ∀ (l : List (Nat × Nat)) (w : Nat),
    ChainOK startT endT w l → w ≤ endT → w + pausedSum l ≤ endT
  | [], w, _, hw => by simpa [pausedSum] using hw
  | (p, r) :: rest, w, ⟨h1, h2, h3, h4, h5, hrest⟩, hw => by
      have := chainOK_le rest (w + (r - p)) hrest (by omega)
      simp only [pausedSum]
      omega

theorem pause_fwd {c : Contract} {s : Stream} {caller stream_id p : Nat}
    (hget : mapGet c.streams stream_id = some s) (hcall : caller = s.sender)
    (hl : s.locked = false) (hc : s.is_cancelled = false) (hp : s.is_paused = false)
    (h1 : s.start_time < p) (h2 : p < s.end_time) :
    pause c caller p stream_id = .ok { c with
      streams := mapInsert c.streams stream_id
        ({ s with is_paused := true, paused_time := p }) } := by
  simp [pause, getStream, hget, require, hcall, hl, hc, hp, h1, h2, bind_ok]

theorem resume_fwd {c : Contract} {s : Stream} {caller stream_id r : Nat}
    (hget : mapGet c.streams stream_id = some s) (hcall : caller = s.sender)
    (hl : s.locked = false) (hc : s.is_cancelled = false) (hp : s.is_paused = true)
    (h4 : s.paused_time ≤ r) (h5 : r ≤ s.end_time) :
    resume c caller r stream_id = .ok { c with
      streams := mapInsert c.streams stream_id
        ({ s with
            is_paused := false
            withdraw_time := s.withdraw_time + (r - s.paused_time)
            paused_amount := s.paused_amount + (r - s.paused_time) * s.rate
            paused_time := 0 }) } := by
  have hnl : ¬ (s.end_time < r) := Nat.not_lt.mpr h5
  simp [resume, getStream, hget, require, hcall, hl, hc, hp, sub?, h4, hnl, bind_ok]

theorem nat_mul_sub (k a b : Nat) : k * (a - b) = k * a - k * b := by
  rcases Nat.le_total b a with hba | hab
  · have h : k * a = k * b + k * (a - b) := by
      rw [← Nat.mul_add, Nat.add_sub_cancel' hba]
    omega
  · have h1 : a - b = 0 := by omega
    have h2 : k * a ≤ k * b := Nat.mul_le_mul_left k hab
    rw [h1]
    omega

theorem applyPauses_ok : ∀ (l : List (Nat × Nat)) (c : Contract) (s : Stream)
    (caller stream_id : Nat),
    mapGet c.streams stream_id = some s → caller = s.sender →
    s.locked = false → s.is_cancelled = false → s.is_paused = false →
    ChainOK s.start_time s.end_time s.withdraw_time l →
    ∃ c' s', applyPauses c caller stream_id l = .ok c' ∧
      mapGet c'.streams stream_id = some s' ∧
      s'.withdraw_time = s.withdraw_time + pausedSum l ∧
      s'.paused_amount = s.paused_amount + pausedSum l * s.rate ∧
      s'.is_paused = false ∧ s'.locked = false ∧ s'.is_cancelled = false ∧
      s'.sender = s.sender ∧ s'.start_time = s.start_time ∧
      s'.end_time = s.end_time ∧ s'.rate = s.rate ∧ s'.balance = s.balance
  | [], c, s, caller, stream_id, hget, _, hl, hc, hp, _ =>
      ⟨c, s, rfl, hget, by simp [pausedSum], by simp [pausedSum], hp, hl, hc,
        rfl, rfl, rfl, rfl, rfl⟩
  | (p, r) :: rest, c, s, caller, stream_id, hget, hcall, hl, hc, hp, hch => by
      obtain ⟨h1, h2, h3, h4, h5, hrest⟩ := hch
      have hc1 := pause_fwd hget hcall hl hc hp h1 h2
      have hget1 : mapGet (mapInsert c.streams stream_id
            ({ s with is_paused := true, paused_time := p })) stream_id
          = some ({ s with is_paused := true, paused_time := p }) :=
        mapGet_mapInsert_self _ _ _
      have hc2 := resume_fwd (s := { s with is_paused := true, paused_time := p })
        (c := { c with streams := mapInsert c.streams stream_id ({ s with is_paused := true, paused_time := p }) })
        hget1 hcall hl hc rfl h4 h5
      have hget2 : mapGet (mapInsert (mapInsert c.streams stream_id
            ({ s with is_paused := true, paused_time := p })) stream_id
            ({ s with
                is_paused := false
                withdraw_time := s.withdraw_time + (r - p)
                paused_amount := s.paused_amount + (r - p) * s.rate
                paused_time := 0 })) stream_id
          = some ({ s with
                is_paused := false
                withdraw_time := s.withdraw_time + (r - p)
                paused_amount := s.paused_amount + (r - p) * s.rate
                paused_time := 0 }) :=
        mapGet_mapInsert_self _ _ _
      obtain ⟨c', s', hrun, hmap, hwt, hpa, hip, hlk, hcn, hsd, hst, het, hrt, hbl⟩ :=
        applyPauses_ok rest
          ({ c with streams := mapInsert (mapInsert c.streams stream_id ({ s with is_paused := true, paused_time := p })) stream_id ({ s with is_paused := false, withdraw_time := s.withdraw_time + (r - p), paused_amount := s.paused_amount + (r - p) * s.rate, paused_time := 0 }) })
          ({ s with is_paused := false, withdraw_time := s.withdraw_time + (r - p), paused_amount := s.paused_amount + (r - p) * s.rate, paused_time := 0 })
          caller stream_id hget2 hcall hl hc rfl hrest
      refine ⟨c', s', ?_, hmap, ?_, ?_, hip, hlk, hcn, hsd, hst, het, hrt, hbl⟩
      · show (pause c caller p stream_id >>= fun c1 =>
            resume c1 caller r stream_id >>= fun c2 =>
              applyPauses c2 caller stream_id rest) = .ok c'
        rw [hc1, bind_ok, hc2, bind_ok]
        exact hrun
      · dsimp only at hwt
        simp only [pausedSum]
        omega
      · dsimp only at hpa
        simp only [pausedSum, Nat.add_mul]
        omega

/-- **C6.** (1) Resuming a paused stream at time `r` advances `withdraw_time`
by exactly `min r end_time - paused_time` (so by `r - paused_time` when
`r ≤ end_time`, clamped at `end_time` otherwise), accrues the matching
`paused_amount`, clears `is_paused` and resets `paused_time` to 0.
(2) Composing any time-ordered schedule of pause/resume pairs through the
entry points advances `withdraw_time` by exactly the sum of the paused
intervals, so the receiver's remaining lifetime entitlement
`rate * (end_time - withdraw_time)` — `receiver_elapsed` at any
`now ≥ end_time` times the rate — equals the never-paused total minus
exactly `rate * Σ (rᵢ - pᵢ)`. -/
theorem C6_pause_resume_math (c : Contract) (stream_id : Nat) (s : Stream)
    (hget : mapGet c.streams stream_id = some s)
    (hl : s.locked = false) (hc : s.is_cancelled = false) (hp : s.is_paused = false)
    (hwe : s.withdraw_time ≤ s.end_time) :
    (∀ (c2 : Contract) (s2 : Stream) (r : Nat) (c2x : Contract),
       mapGet c2.streams stream_id = some s2 →
       resume c2 s2.sender r stream_id = .ok c2x →
       mapGet c2x.streams stream_id = some ({ s2 with
         is_paused := false
         withdraw_time := s2.withdraw_time +
           ((if r ≤ s2.end_time then r else s2.end_time) - s2.paused_time)
         paused_amount := s2.paused_amount +
           ((if r ≤ s2.end_time then r else s2.end_time) - s2.paused_time) * s2.rate
         paused_time := 0 })) ∧
    (∀ l, ChainOK s.start_time s.end_time s.withdraw_time l →
      ∃ c' s', applyPauses c s.sender stream_id l = .ok c' ∧
        mapGet c'.streams stream_id = some s' ∧
        s'.withdraw_time = s.withdraw_time + pausedSum l ∧
        s'.withdraw_time ≤ s.end_time ∧
        s'.rate * (s.end_time - s'.withdraw_time)
          = s.rate * (s.end_time - s.withdraw_time) - s.rate * pausedSum l ∧
        (s'.withdraw_time < s.end_time → ∀ T, s.end_time ≤ T →
          receiver_elapsed s' T = .ok (s.end_time - s'.withdraw_time, T))) := by
  constructor
  · intro c2 s2 r c2x hget2 hres
    obtain ⟨_, _, _, _, hcase⟩ := resume_ok_cases hget2 hres
    rcases hcase with ⟨hend, hpt, hmap⟩ | ⟨hend, hpt, hmap⟩
    · rw [if_neg (by omega)]
      exact hmap
    · rw [if_pos hend]
      exact hmap
  · intro l hchain
    obtain ⟨c', s', hrun, hmap, hwt, hpa, hip, hlk, hcn, hsd, hst, het, hrt, hbl⟩ :=
      applyPauses_ok l c s s.sender stream_id hget rfl hl hc hp hchain
    have hbound : s.withdraw_time + pausedSum l ≤ s.end_time :=
      chainOK_le l s.withdraw_time hchain hwe
    refine ⟨c', s', hrun, hmap, hwt, by omega, ?_, ?_⟩
    · rw [hrt, hwt]
      have hsub : s.end_time - (s.withdraw_time + pausedSum l)
          = (s.end_time - s.withdraw_time) - pausedSum l := by omega
      rw [hsub, nat_mul_sub]
    · intro hlt T hT
      simp only [receiver_elapsed, het, hip, Bool.false_eq_true, if_false]
      rw [if_pos hT, require_pos hlt, bind_ok, sub_ok (Nat.le_of_lt hlt), bind_ok]

/-- Witness for C6 on the concrete running stream: the schedule
pause at 102 / resume at 104, then pause at 106 / resume at 107 advances
`withdraw_time` from 100 to 103, keeps it at or below `end_time = 110`, and
leaves the receiver a lifetime entitlement of `1 * 7 = 1 * 10 - 1 * 3`. -/
theorem C6_pause_resume_math_witness :
    ∃ c' s', applyPauses c8Contract 10 1 [(102, 104), (106, 107)] = .ok c' ∧
      mapGet c'.streams 1 = some s' ∧
      s'.withdraw_time = 103 ∧ s'.withdraw_time ≤ 110 ∧
      s'.rate * (110 - s'.withdraw_time) = 1 * (110 - 100) - 1 * 3 ∧
      (s'.withdraw_time < 110 → ∀ T, 110 ≤ T →
        receiver_elapsed s' T = .ok (110 - s'.withdraw_time, T)) := by
  obtain ⟨c', s', hrun, hmap, hwt, hble, hent, helapsed⟩ :=
    (C6_pause_resume_math c8Contract 1 c8Stream rfl rfl rfl rfl (by decide)).2
      [(102, 104), (106, 107)]
      ⟨by decide, by decide, by decide, by decide, by decide,
        by decide, by decide, by decide, by decide, by decide, trivial⟩
  refine ⟨c', s', hrun, hmap, ?_, hble, ?_, helapsed⟩
  · exact hwt.trans (by decide)
  · exact hent.trans (by decide)

end Zebec
